import Mathlib

set_option maxRecDepth 100000
set_option maxHeartbeats 1000000

/-!
Verification development for the RIQ LabMatch faculty data pipeline
(`faculty_pipeline_v4_5.py`).  The Python source is shallowly embedded:
pure helpers become Lean functions on `String`/`List Char`/`ℚ`, the
stateful Brave search client becomes explicit state passing with a
response oracle indexed by the number of network requests issued, and
network/HTML boundaries (page fetches, the `re` engine over arbitrary
page text, the BeautifulSoup parses) are modelled as oracle parameters.
Floating point scores are modelled as exact rationals.
-/

namespace Pipeline

/-! ## Character and string utilities

Python `\w` (ASCII range), whitespace, substring membership and the
helpers the pipeline builds on.  `strContains hay sub` is Python's
`sub in hay` (true for the empty substring, as in Python). -/

def isWordChar (c : Char) : Bool :=
  c.isAlphanum || c = '_'

def dropLead : List Char → List Char → Option (List Char)
  | [], s => some s
  | _ :: _, [] => none
  | a :: as, b :: bs => if a = b then dropLead as bs else none

def listHasLead (t s : List Char) : Bool :=
  (dropLead t s).isSome

def listContainsSub (hay sub : List Char) : Bool :=
  match hay with
  | [] => sub.isEmpty
  | _ :: rest => listHasLead sub hay || listContainsSub rest sub

def strContains (hay sub : String) : Bool :=
  listContainsSub hay.toList sub.toList

/-- Python `str.lower()` (ASCII). -/
def sLower (s : String) : String :=
  String.mk (s.toList.map Char.toLower)

def trimChars (s : List Char) : List Char :=
  ((s.dropWhile Char.isWhitespace).reverse.dropWhile Char.isWhitespace).reverse

/-- Python `str.strip()`. -/
def sTrim (s : String) : String :=
  String.mk (trimChars s.toList)

def splitOnCharGo (sep : Char) : List Char → List Char → List (List Char)
  | [], cur => [cur.reverse]
  | c :: cs, cur =>
    if c = sep then cur.reverse :: splitOnCharGo sep cs []
    else splitOnCharGo sep cs (c :: cur)

/-- Python `str.split(sep)` for a one-character separator (keeps empty
pieces, `""` gives `[""]`). -/
def sSplit (sep : Char) (s : String) : List String :=
  (splitOnCharGo sep s.toList []).map String.mk

def sTake1 (s : String) : String :=
  String.mk (s.toList.take 1)

def sLen (s : String) : ℕ :=
  s.toList.length

def joinSep (sep : String) : List String → String
  | [] => ""
  | [w] => w
  | w :: ws => w ++ sep ++ joinSep sep ws

def rstripSlash (s : List Char) : List Char :=
  (s.reverse.dropWhile (fun c => c = '/')).reverse

/-! ## Executable rational arithmetic

The scores of the pipeline are IEEE doubles in Python; they are
modelled as exact rationals.  `Rat`'s `+`/`*`/`/` from Mathlib do not
evaluate inside the kernel, so the embedding uses `mkRat`-based
equivalents, proved equal to the field operations below so that
ordinary `ℚ` lemmas still apply. -/

def qAdd (a b : ℚ) : ℚ :=
  mkRat (a.num * (b.den : ℤ) + b.num * (a.den : ℤ)) (a.den * b.den)

def qSub (a b : ℚ) : ℚ :=
  mkRat (a.num * (b.den : ℤ) - b.num * (a.den : ℤ)) (a.den * b.den)

def qMul (a b : ℚ) : ℚ :=
  mkRat (a.num * b.num) (a.den * b.den)

def qDiv (a b : ℚ) : ℚ :=
  Rat.divInt (a.num * (b.den : ℤ)) ((a.den : ℤ) * b.num)

/-- Split a character list on whitespace runs, like Python `str.split()`. -/
def splitWsGo : List Char → List Char → List (List Char)
  | [], cur => if cur.isEmpty then [] else [cur.reverse]
  | c :: cs, cur =>
    if c.isWhitespace then
      if cur.isEmpty then splitWsGo cs [] else cur.reverse :: splitWsGo cs []
    else splitWsGo cs (c :: cur)

def splitWs (s : List Char) : List (List Char) :=
  splitWsGo s []

def joinWords : List (List Char) → List Char
  | [] => []
  | [w] => w
  | w :: ws => w ++ ' ' :: joinWords ws

/-! ## NameMatcher

Embedding of `NameMatcher` (`faculty_pipeline_v4_5.py` lines 415-544).
`normalize` lowercases, strips the fixed honorific list with the regex
`\b<title>\.?\b` (replaced by the empty string, all occurrences, one
title at a time in list order), maps punctuation other than hyphens to
spaces and collapses whitespace. -/

def TITLES : List String :=
  ["dr", "prof", "professor", "mr", "mrs", "ms", "phd", "md", "jr", "sr",
   "iii", "ii", "iv"]

def boundaryBefore (prev : Option Char) : Bool :=
  match prev with
  | none => true
  | some c => !(isWordChar c)

def tLast (t : List Char) : Char :=
  t.getLastD ' '

/-- Try to match the regex `\b<title>\.?\b` at the current position.
On success return the last character consumed (for later word-boundary
tests) and the remaining suffix.  The optional dot is matched greedily
and given up when the trailing `\b` fails after it, exactly as the
Python `re` engine backtracks. -/
def titleMatchAt (t : List Char) (prev : Option Char) (s : List Char) :
    Option (Char × List Char) :=
  if !(boundaryBefore prev) then none
  else
    match dropLead t s with
    | none => none
    | some rest =>
      match rest with
      | [] => some (tLast t, [])
      | '.' :: rest2 =>
        match rest2 with
        | c2 :: _ =>
          if isWordChar c2 then some ('.', rest2) else some (tLast t, '.' :: rest2)
        | [] => some (tLast t, '.' :: rest2)
      | c :: cs =>
        if isWordChar c then none else some (tLast t, c :: cs)

/-- One left-to-right `re.sub` pass over the scanned string, removing
every non-overlapping match of `\b<title>\.?\b`. -/
def subTitleGo (t : List Char) : ℕ → Option Char → List Char → List Char
  | 0, _, s => s
  | _ + 1, _, [] => []
  | fuel + 1, prev, c :: cs =>
    match titleMatchAt t prev (c :: cs) with
    | some (lastC, rest) => subTitleGo t fuel (some lastC) rest
    | none => c :: subTitleGo t fuel (some c) cs

def subTitleAll (t s : List Char) : List Char :=
  subTitleGo t s.length none s

/-- Embedding of `NameMatcher.normalize` (lines 421-432). -/
def normalize (name : String) : String :=
  let s0 := (sTrim (sLower name)).toList
  let s1 := TITLES.foldl (fun acc t => subTitleAll t.toList acc) s0
  let s2 := s1.map (fun c =>
    if isWordChar c || c.isWhitespace || c = '-' then c else ' ')
  String.mk (joinWords (splitWs s2))

structure NameParts where
  first : String
  last : String
  middle : String
  full : String
deriving Repr, DecidableEq

/-- Embedding of `NameMatcher.get_name_parts` (lines 434-447). -/
def getNameParts (name : String) : NameParts :=
  let norm := normalize name
  let parts := if norm = "" then [] else sSplit ' ' norm
  match parts with
  | [] => ⟨"", "", "", ""⟩
  | [p] => ⟨p, p, "", norm⟩
  | [p, q] => ⟨p, q, "", norm⟩
  | p :: rest => ⟨p, rest.getLastD "", joinSep " " rest.dropLast, norm⟩

/-- Embedding of `NameMatcher.generate_variations` (lines 449-481). -/
def generateVariations (name : String) : List String :=
  let p := getNameParts name
  let first := p.first
  let last := p.last
  let middle := p.middle
  let base : List String :=
    [p.full,
     first ++ " " ++ last,
     last ++ " " ++ first,
     if first ≠ "" then sTake1 first ++ " " ++ last else "",
     if first ≠ "" then sTake1 first ++ last else "",
     last,
     first]
  let withMid :=
    if middle ≠ "" then
      base ++
        [first ++ " " ++ middle ++ " " ++ last,
         first ++ " " ++ sTake1 middle ++ " " ++ last,
         if first ≠ "" then sTake1 first ++ " " ++ sTake1 middle ++ " " ++ last else ""]
    else base
  let withHyphen :=
    if strContains last "-" then
      withMid ++ [(sSplit '-' last).headD "", (sSplit '-' last).getLastD ""]
    else withMid
  (withHyphen.map sTrim).filter (fun v => v ≠ "")

/-! ## difflib.SequenceMatcher.ratio

Ratcliff–Obershelp similarity as implemented by `difflib` (no junk;
the autojunk heuristic only kicks in for strings of 200+ characters,
far beyond any person name handled here).  `findLM` returns the
longest matching block, ties resolved towards the smallest index in
the first string and then the second, matching
`SequenceMatcher.find_longest_match`. -/

def runLen : List Char → List Char → ℕ
  | x :: xs, y :: ys => if x = y then runLen xs ys + 1 else 0
  | _, _ => 0

def runLenAt (a b : List Char) (i j ahi bhi : ℕ) : ℕ :=
  min (min (runLen (a.drop i) (b.drop j)) (ahi - i)) (bhi - j)

def findLM (a b : List Char) (alo ahi blo bhi : ℕ) : ℕ × ℕ × ℕ :=
  (List.range' alo (ahi - alo)).foldl (fun best i =>
    (List.range' blo (bhi - blo)).foldl (fun best j =>
      let k := runLenAt a b i j ahi bhi
      if k > best.2.2 then (i, j, k) else best) best) (alo, blo, 0)

def smMatches (a b : List Char) : ℕ → ℕ × ℕ → ℕ × ℕ → ℕ
  | 0, _, _ => 0
  | fuel + 1, (alo, ahi), (blo, bhi) =>
    let m := findLM a b alo ahi blo bhi
    if m.2.2 = 0 then 0
    else
      smMatches a b fuel (alo, m.1) (blo, m.2.1) + m.2.2 +
        smMatches a b fuel (m.1 + m.2.2, ahi) (m.2.1 + m.2.2, bhi)

def seqMatchScore (a b : List Char) : ℚ :=
  let n := a.length + b.length
  if n = 0 then 1
  else qDiv ((2 * smMatches a b (n + 1) (0, a.length) (0, b.length) : ℕ) : ℚ) ((n : ℕ) : ℚ)

/-- Embedding of `NameMatcher.fuzzy_match` (lines 483-498). -/
def fuzzyMatch (name1 name2 : String) : ℚ :=
  let norm1 := normalize name1
  let norm2 := normalize name2
  if norm1 = norm2 then 1
  else if strContains norm2 norm1 || strContains norm1 norm2 then mkRat 9 10
  else seqMatchScore norm1.toList norm2.toList

/-- Embedding of `NameMatcher.match_email_to_name` (lines 500-544). -/
def matchEmailToName (email facultyName : String) : ℚ :=
  if email = "" || facultyName = "" then 0
  else
    let localPart := (sSplit '@' (sLower email)).headD ""
    let parts := getNameParts facultyName
    let first := parts.first
    let last := parts.last
    let s1 : ℚ :=
      if last ≠ "" ∧ sLen last > 2 ∧ strContains localPart last then mkRat 1 2 else 0
    let s2 : ℚ :=
      if first ≠ "" ∧ sLen first > 2 ∧ strContains localPart first then
        qAdd s1 (mkRat 3 10)
      else s1
    let pats : List String :=
      [if first ≠ "" then sTake1 first ++ last else "",
       if first ≠ "" then sTake1 first ++ "_" ++ last else "",
       if first ≠ "" then sTake1 first ++ "." ++ last else "",
       if first ≠ "" then last ++ sTake1 first else "",
       first ++ "." ++ last,
       first ++ "_" ++ last,
       first ++ last,
       last ++ "." ++ first,
       last ++ "_" ++ first]
    let s3 : ℚ :=
      if pats.any (fun p => p ≠ "" && strContains localPart p) then qAdd s2 (mkRat 1 5)
      else s2
    let s4 : ℚ :=
      if fuzzyMatch localPart (first ++ last) > mkRat 7 10 then qAdd s3 (mkRat 1 10)
      else s3
    min s4 1

/-! ## Data model

Embedding of the dataclasses (`faculty_pipeline_v4_5.py` lines 155-348).
The enum-valued string tags become inductive types; optional strings
become `Option String` (Python `None`), and Python truthiness of such a
field (`not self.email.value`) is `strTruthy`. -/

inductive ConfidenceLevel
  | high | medium | low | unknown
deriving DecidableEq, Repr

def ConfidenceLevel.toStr : ConfidenceLevel → String
  | .high => "high"
  | .medium => "medium"
  | .low => "low"
  | .unknown => "unknown"

/-- Embedding of `ConfidenceLevel(s)` with the `except ValueError` fallback used by
`EmailData.from_dict` / `WebsiteData.from_dict`. -/
def parseConfidence (s : String) : ConfidenceLevel :=
  if s = "high" then .high
  else if s = "medium" then .medium
  else if s = "low" then .low
  else if s = "unknown" then .unknown
  else .unknown

inductive DataSource
  | openalex | website | search | orcid | directory | fallback | unknown
deriving DecidableEq, Repr

def DataSource.toStr : DataSource → String
  | .openalex => "openalex"
  | .website => "website"
  | .search => "search"
  | .orcid => "orcid"
  | .directory => "directory"
  | .fallback => "fallback"
  | .unknown => "unknown"

def parseDataSource (s : String) : DataSource :=
  if s = "openalex" then .openalex
  else if s = "website" then .website
  else if s = "search" then .search
  else if s = "orcid" then .orcid
  else if s = "directory" then .directory
  else if s = "fallback" then .fallback
  else .unknown

/-- Python truthiness of an optional string (`None` and `""` are falsy). -/
def strTruthy : Option String → Bool
  | none => false
  | some s => s ≠ ""

structure TopicEntry where
  name : String
  score : ℚ
deriving DecidableEq, Repr

structure ConceptEntry where
  name : String
  level : ℤ
  score : ℚ
deriving DecidableEq, Repr

structure ResearchProfile where
  topics : List TopicEntry := []
  concepts : List ConceptEntry := []
  fields : List String := []
  keywords : List String := []
  description : Option String := none
deriving DecidableEq, Repr

structure EmailData where
  value : Option String := none
  source : DataSource := .unknown
  confidence : ConfidenceLevel := .unknown
  extracted_from : Option String := none
  extraction_method : Option String := none
  name_match_score : ℚ := 0
deriving DecidableEq, Repr

structure WebsiteData where
  value : Option String := none
  source : DataSource := .unknown
  confidence : ConfidenceLevel := .unknown
  score : ℚ := 0
  signals : List String := []
  page_type : String := "unknown"
deriving DecidableEq, Repr

structure FacultyMember where
  name : String
  openalex_id : Option String := none
  orcid : Option String := none
  institution : String := ""
  institution_id : Option String := none
  h_index : ℤ := 0
  i10_index : ℤ := 0
  works_count : ℤ := 0
  cited_by_count : ℤ := 0
  research : ResearchProfile := {}
  email : EmailData := {}
  website : WebsiteData := {}
  extraction_date : String := ""
  needs_review : Bool := false
  review_notes : Option String := none
deriving DecidableEq, Repr

/-! ## Python round

`round(x, n)` rounds half to even.  (On floats the tie decision is
taken on the binary value; the model rounds the exact rational, which
agrees wherever the value is exactly representable, and claim C9 only
ever uses it through a fixed-point hypothesis.) -/

def qFloor (y : ℚ) : ℤ :=
  y.num.fdiv (y.den : ℤ)

def roundHalfEven (y : ℚ) : ℤ :=
  let f := qFloor y
  let r := qSub y ((f : ℤ) : ℚ)
  if r < mkRat 1 2 then f
  else if mkRat 1 2 < r then f + 1
  else if f % 2 = 0 then f else f + 1

def pRound (x : ℚ) (n : ℕ) : ℚ :=
  mkRat (roundHalfEven (qMul x ((10 ^ n : ℕ) : ℚ))) (10 ^ n)

/-! ## Checkpoint serialization

`to_dict`/`from_dict` of the dataclasses (lines 178-348).  A serialized
record is modelled by a `…Ser` structure holding exactly the keys the
corresponding `to_dict` emits (enum tags as raw strings, scores already
rounded). -/

structure ResearchSer where
  topics : List TopicEntry
  concepts : List ConceptEntry
  fields : List String
  keywords : List String
  description : Option String
deriving DecidableEq, Repr

def researchToDict (r : ResearchProfile) : ResearchSer :=
  ⟨r.topics.take 10, r.concepts.take 5, r.fields.take 5, r.keywords.take 15,
   r.description⟩

def researchFromDict (d : ResearchSer) : ResearchProfile :=
  ⟨d.topics, d.concepts, d.fields, d.keywords, d.description⟩

/-- Embedding of `ResearchProfile.get_summary` (lines 197-202). -/
def researchSummary (r : ResearchProfile) : String :=
  if r.topics ≠ [] then joinSep "; " ((r.topics.take 5).map (fun t => t.name))
  else if r.concepts ≠ [] then joinSep "; " ((r.concepts.take 5).map (fun c => c.name))
  else ""

structure EmailSer where
  value : Option String
  source : String
  confidence : String
  extracted_from : Option String
  extraction_method : Option String
  name_match_score : ℚ
deriving DecidableEq, Repr

def emailToDict (e : EmailData) : EmailSer :=
  ⟨e.value, e.source.toStr, e.confidence.toStr, e.extracted_from,
   e.extraction_method, pRound e.name_match_score 2⟩

def emailFromDict (d : EmailSer) : EmailData :=
  ⟨d.value, parseDataSource d.source, parseConfidence d.confidence,
   d.extracted_from, d.extraction_method, d.name_match_score⟩

structure WebsiteSer where
  value : Option String
  source : String
  confidence : String
  score : ℚ
  signals : List String
  page_type : String
deriving DecidableEq, Repr

def websiteToDict (w : WebsiteData) : WebsiteSer :=
  ⟨w.value, w.source.toStr, w.confidence.toStr, pRound w.score 3, w.signals,
   w.page_type⟩

def websiteFromDict (d : WebsiteSer) : WebsiteData :=
  ⟨d.value, parseDataSource d.source, parseConfidence d.confidence, d.score,
   d.signals, d.page_type⟩

structure FacultySer where
  name : String
  openalex_id : Option String
  orcid : Option String
  institution : String
  institution_id : Option String
  h_index : ℤ
  i10_index : ℤ
  works_count : ℤ
  cited_by_count : ℤ
  research : ResearchSer
  research_summary : String
  email : EmailSer
  website : WebsiteSer
  extraction_date : String
  needs_review : Bool
  review_notes : Option String
deriving DecidableEq, Repr

def facultyToDict (f : FacultyMember) : FacultySer :=
  ⟨f.name, f.openalex_id, f.orcid, f.institution, f.institution_id, f.h_index,
   f.i10_index, f.works_count, f.cited_by_count, researchToDict f.research,
   researchSummary f.research, emailToDict f.email, websiteToDict f.website,
   f.extraction_date, f.needs_review, f.review_notes⟩

/-- Embedding of `FacultyMember.from_dict` (lines 330-348); the `research_summary`
key emitted by `to_dict` is ignored, like in the source. -/
def facultyFromDict (d : FacultySer) : FacultyMember :=
  ⟨d.name, d.openalex_id, d.orcid, d.institution, d.institution_id, d.h_index,
   d.i10_index, d.works_count, d.cited_by_count, researchFromDict d.research,
   emailFromDict d.email, websiteFromDict d.website, d.extraction_date,
   d.needs_review, d.review_notes⟩

/-! ## Institution configuration

`INSTITUTIONS["harvard"]` and the global thresholds (lines 51-128). -/

structure InstConfig where
  name : String
  openalex_id : String
  email_domains : List String
  website_domain : String
  directories : List String := []
  skip_email_sites : List String := []
  contact_page_sites : List String := []
deriving DecidableEq, Repr

def harvardConfig : InstConfig where
  name := "Harvard University"
  openalex_id := "I136199984"
  email_domains :=
    ["harvard.edu", "hms.harvard.edu", "hsph.harvard.edu",
     "fas.harvard.edu", "hbs.edu", "dfci.harvard.edu",
     "mgh.harvard.edu", "bwh.harvard.edu", "childrens.harvard.edu",
     "broadinstitute.org", "dana-farber.org", "bidmc.harvard.edu",
     "meei.harvard.edu", "mclean.harvard.edu", "hsdm.harvard.edu",
     "massgeneral.org", "brighamandwomens.org", "mgh.org"]
  website_domain := "harvard.edu"
  directories :=
    ["https://chemistry.harvard.edu/people",
     "https://physics.harvard.edu/people/faculty",
     "https://psychology.fas.harvard.edu/people",
     "https://economics.harvard.edu/faculty",
     "https://sociology.fas.harvard.edu/people",
     "https://statistics.fas.harvard.edu/people",
     "https://gov.harvard.edu/people",
     "https://www.mcb.harvard.edu/directory/faculty/",
     "https://sysbio.med.harvard.edu/faculty"]
  skip_email_sites := ["connects.catalyst.harvard.edu", "vcp.med.harvard.edu"]
  contact_page_sites := ["hsph.harvard.edu", "hms.harvard.edu"]

def HIGH_VALUE_H_INDEX : ℤ := 40
def MEDIUM_VALUE_H_INDEX : ℤ := 20
def MIN_H_INDEX_FOR_EXTRACTION : ℤ := 10
def MAX_INSTITUTIONS : ℕ := 15
def MAX_RETRIES : ℕ := 3
def MAX_CONTACT_PAGES : ℕ := 7
def FUZZY_MATCH_THRESHOLD : ℚ := mkRat 17 20

/-! ## Brave search client

`BraveSearchClient` (lines 609-685).  The mutable fields of the Python
object form `BraveState`; every HTTP request consumed from the network
is one consultation of `oracle` at index `attempts` (the running count
of requests issued), so "no further network calls" is "`attempts` does
not grow".  `raise_for_status` failures on other status codes raise
`requests` exceptions and are handled by the same
`RequestException` branch as connection errors, hence `reqError`. -/

structure SearchResult where
  url : String := ""
  title : String := ""
  description : String := ""
deriving DecidableEq, Repr

inductive BraveResponse
  | ok (results : List SearchResult)
  | code401
  | code402
  | code429
  | timeout
  | reqError (msg : String)
deriving DecidableEq, Repr

structure BraveState where
  api_key : String := ""
  queries_used : ℕ := 0
  queries_failed : ℕ := 0
  rate_limit_hits : ℕ := 0
  last_error : Option String := none
  quota_exhausted : Bool := false
  attempts : ℕ := 0
deriving DecidableEq, Repr

/-- The retry loop body of `BraveSearchClient.search` (lines 641-685);
`tries` is the number of loop iterations still available. -/
def braveSearchLoop (oracle : ℕ → BraveResponse) :
    ℕ → BraveState → List SearchResult × BraveState
  | 0, st => ([], { st with queries_failed := st.queries_failed + 1 })
  | tries + 1, st =>
    let st1 := { st with attempts := st.attempts + 1 }
    match oracle st.attempts with
    | .code401 =>
      ([], { st1 with last_error := some "Invalid API key",
                      queries_failed := st1.queries_failed + 1 })
    | .code402 =>
      ([], { st1 with last_error := some "Quota exhausted",
                      quota_exhausted := true,
                      queries_failed := st1.queries_failed + 1 })
    | .code429 =>
      braveSearchLoop oracle tries
        { st1 with rate_limit_hits := st1.rate_limit_hits + 1 }
    | .ok rs =>
      (rs, { st1 with queries_used := st1.queries_used + 1, last_error := none })
    | .timeout =>
      braveSearchLoop oracle tries { st1 with last_error := some "Timeout" }
    | .reqError msg =>
      if tries = 0 then
        ([], { st1 with last_error := some msg,
                        queries_failed := st1.queries_failed + 1 })
      else braveSearchLoop oracle tries { st1 with last_error := some msg }

/-- Embedding of `BraveSearchClient.search` (lines 629-685). -/
def braveSearch (oracle : ℕ → BraveResponse) (st : BraveState)
    (_query : String) : List SearchResult × BraveState :=
  if st.api_key = "" || st.quota_exhausted then ([], st)
  else braveSearchLoop oracle MAX_RETRIES st

/-- Embedding of `BraveSearchClient.check_quota` (lines 619-627). -/
def checkQuota (oracle : ℕ → BraveResponse) (st : BraveState) :
    (Bool × String) × BraveState :=
  if st.api_key = "" then ((false, "API key not set"), st)
  else
    let st' := (braveSearch oracle st "test").2
    if st'.quota_exhausted then ((false, "Quota exhausted (402 error)"), st')
    else
      match st'.last_error with
      | some e => ((false, e), st')
      | none => ((true, "OK"), st')

/-! ## Directory scraper lookups

`DirectoryScraper` (lines 766-919).  The two caches scraped from the
configured listing pages are Python dicts (insertion ordered); they are
modelled as association lists in iteration order.  Scraping itself
(HTTP + BeautifulSoup) is outside the embedding: the caches are inputs. -/

def sEndsWith (s t : String) : Bool :=
  listHasLead t.toList.reverse s.toList.reverse

/-- Shared allow-list test `domain == d or domain.endswith('.' + d)`
against the lowered configured domains. -/
def domainMatches (domains : List String) (domain : String) : Bool :=
  domains.any (fun d =>
    let d' := sLower d
    domain = d' || sEndsWith domain ("." ++ d'))

/-- Embedding of `DirectoryScraper._is_valid_email` (lines 778-782); the domain is
the last `@`-component of the lowered address. -/
def dirIsValidEmail (cfg : InstConfig) (email : String) : Bool :=
  if email = "" then false
  else domainMatches cfg.email_domains ((sSplit '@' (sLower email)).getLastD "")

def cacheFind (cache : List (String × String)) (k : String) : Option String :=
  (cache.find? (fun kv => kv.1 = k)).map (fun kv => kv.2)

def firstExactHit (cache : List (String × String)) : List String → Option String
  | [] => none
  | v :: vs =>
    match cacheFind cache v with
    | some e => some e
    | none => firstExactHit cache vs

/-- One step of the fuzzy scan of `lookup_email`
(`score > best_score and score >= FUZZY_MATCH_THRESHOLD`). -/
def fuzzyBestStep (name : String) (acc : Option String × ℚ) (kv : String × String) :
    Option String × ℚ :=
  let score := fuzzyMatch name kv.1
  if score > acc.2 ∧ score ≥ FUZZY_MATCH_THRESHOLD then (some kv.2, score) else acc

/-- Embedding of `DirectoryScraper.lookup_email` (lines 863-899); the final
`if best_match:` is Python truthiness, so an empty cached address from
the fuzzy tier yields `None`. -/
def lookupEmail (cache : List (String × String)) (facultyName : String) :
    Option EmailData :=
  match firstExactHit cache (generateVariations facultyName) with
  | some e =>
    some { value := some e, source := .directory, confidence := .high,
           extracted_from := some "department_directory",
           extraction_method := some "directory_exact_match",
           name_match_score := 1 }
  | none =>
    let best := cache.foldl (fuzzyBestStep facultyName) (none, 0)
    match best.1 with
    | some e =>
      if e ≠ "" then
        some { value := some e, source := .directory, confidence := .medium,
               extracted_from := some "department_directory",
               extraction_method := some "directory_fuzzy_match",
               name_match_score := best.2 }
      else none
    | none => none

def lookupWebsiteFuzzy (name : String) : List (String × String) → Option String
  | [] => none
  | kv :: rest =>
    if fuzzyMatch name kv.1 ≥ FUZZY_MATCH_THRESHOLD then some kv.2
    else lookupWebsiteFuzzy name rest

/-- Embedding of `DirectoryScraper.lookup_website` (lines 901-912): exact variations
first, then the first (not best) cache entry at or above the fuzzy
threshold, in cache iteration order. -/
def lookupWebsite (cache : List (String × String)) (facultyName : String) :
    Option String :=
  match firstExactHit cache (generateVariations facultyName) with
  | some w => some w
  | none => lookupWebsiteFuzzy facultyName cache

/-- Phase 2A body of `FacultyPipeline.run` (lines 1763-1770): fill
directory emails onto records that have none. -/
def directoryEmailFill (cache : List (String × String))
    (l : List FacultyMember) : List FacultyMember :=
  l.map (fun f =>
    if !(strTruthy f.email.value) then
      match lookupEmail cache f.name with
      | some e => { f with email := e }
      | none => f
    else f)

/-! ## Website finder

`WebsiteFinder` (lines 925-1187) and the module denylists
(lines 550-569). -/

def HARD_DENYLIST : List String :=
  ["facebook.com", "twitter.com", "x.com", "instagram.com",
   "linkedin.com", "tiktok.com", "youtube.com",
   "doi.org", "pubmed.ncbi.nlm.nih.gov", "arxiv.org", "biorxiv.org",
   "wikipedia.org", "amazon.com"]

def SOFT_DENYLIST : List String :=
  ["research.com", "researchgate.net", "academia.edu",
   "semanticscholar.org", "scholar.google.com", "aminer.org"]

def URL_PATTERN_DENYLIST : List String :=
  ["/login", "/signin", "/auth",
   "/course/", "/courses/",
   "/news/article", "/press-release",
   ".pdf", ".doc", ".ppt",
   "/search?", "/tag/", "/category/",
   "/event/"]

def HOMEPAGE_KEYWORDS : List String :=
  ["publications", "research", "teaching", "cv", "curriculum vitae",
   "students", "lab", "group", "contact", "about", "bio", "projects"]

def PERSONAL_PAGE_PATTERNS : List String :=
  ["/~", "/people/", "/faculty/", "/profile/", "/lab/", "/labs/",
   "/group/", "people.", "scholar.", "/person/", "/staff/"]

/-- Embedding of `WebsiteFinder._is_hard_denied` (lines 940-948). -/
def isHardDenied (url : String) : Bool :=
  let u := sLower url
  HARD_DENYLIST.any (fun d => strContains u d) ||
    URL_PATTERN_DENYLIST.any (fun p => strContains u p)

/-- Embedding of `WebsiteFinder._classify_page_type` (lines 950-967). -/
def classifyPageType (cfg : InstConfig) (url : String) : String × ℚ :=
  let u := sLower url
  if SOFT_DENYLIST.any (fun d => strContains u d) then ("aggregator", mkRat (-2) 5)
  else if ["/pubs", "/publications/", "/papers/"].any (fun p => strContains u p) then
    ("publications", mkRat (-1) 5)
  else if PERSONAL_PAGE_PATTERNS.any (fun p => strContains u p) then
    ("personal", mkRat 1 10)
  else if cfg.website_domain ≠ "" && strContains u cfg.website_domain then
    ("department", mkRat 1 20)
  else ("unknown", 0)

def endsGenericListing (u : String) : Bool :=
  let u' := String.mk (rstripSlash u.toList)
  ["/people", "/faculty", "/directory", "/staff"].any (fun t => sEndsWith u' t)

/-- Embedding of `WebsiteFinder._score_result` (lines 969-1032). -/
def scoreResult (cfg : InstConfig) (r : SearchResult) (name : String) :
    ℚ × List String × String :=
  let url := sLower r.url
  let title := sLower r.title
  let description := sLower r.description
  let combined := title ++ " " ++ description
  let tp := classifyPageType cfg url
  let pageType := tp.1
  let s0 := tp.2
  let g0 : List String := if tp.2 ≠ 0 then ["type:" ++ pageType] else []
  let instHit := cfg.website_domain ≠ "" && strContains url cfg.website_domain
  let s1 := if instHit then qAdd s0 (mkRat 2 5) else s0
  let g1 := if instHit then g0 ++ ["institution_domain"] else g0
  let eduHit := strContains url ".edu"
  let s2 := if eduHit then qAdd s1 (mkRat 1 5) else s1
  let g2 := if eduHit then g1 ++ ["edu_domain"] else g1
  let tildeHit := strContains url "/~"
  let profHit := ["/people/", "/faculty/", "/profile/"].any (fun p => strContains url p)
  let labHit := ["/lab/", "/labs/", "/group/"].any (fun p => strContains url p)
  let s3 := if tildeHit then qAdd s2 (mkRat 7 20)
            else if profHit then qAdd s2 (mkRat 1 5)
            else if labHit then qAdd s2 (mkRat 3 20)
            else s2
  let g3 := if tildeHit then g2 ++ ["tilde_url"]
            else if profHit then g2 ++ ["profile_url"]
            else if labHit then g2 ++ ["lab_url"]
            else g2
  let parts := getNameParts name
  let lastName := parts.last
  let firstName := parts.first
  let lastUrlHit := lastName ≠ "" && sLen lastName > 2 && strContains url lastName
  let s4 := if lastUrlHit then qAdd s3 (mkRat 1 4) else s3
  let g4 := if lastUrlHit then g3 ++ ["lastname_in_url"] else g3
  let lastTitleHit := lastName ≠ "" && sLen lastName > 2 && strContains title lastName
  let s5 := if lastTitleHit then qAdd s4 (mkRat 3 20) else s4
  let g5 := if lastTitleHit then g4 ++ ["lastname_in_title"] else g4
  let firstTitleHit := firstName ≠ "" && sLen firstName > 2 && strContains title firstName
  let s6 := if firstTitleHit then qAdd s5 (mkRat 1 10) else s5
  let g6 := if firstTitleHit then g5 ++ ["firstname_in_title"] else g5
  let fullHit := strContains title (sLower name)
  let s7 := if fullHit then qAdd s6 (mkRat 1 5) else s6
  let g7 := if fullHit then g6 ++ ["fullname_in_title"] else g6
  let kwCount := (HOMEPAGE_KEYWORDS.filter (fun kw => strContains combined kw)).length
  let s8 := if kwCount ≥ 2 then qAdd s7 (mkRat 1 10) else s7
  let g8 := if kwCount ≥ 2 then g7 ++ ["keywords:" ++ toString kwCount] else g7
  let genHit := endsGenericListing url
  let s9 := if genHit then qSub s8 (mkRat 3 10) else s8
  let g9 := if genHit then g8 ++ ["generic_listing"] else g8
  (s9, g9, pageType)

/-- Embedding of `WebsiteFinder._generate_queries` (lines 1034-1046). -/
def generateQueries (cfg : InstConfig) (name : String) (h : ℤ) : List String :=
  (if cfg.website_domain ≠ "" then
    ["\"" ++ name ++ "\" site:" ++ cfg.website_domain]
  else []) ++
  (if h ≥ HIGH_VALUE_H_INDEX then
    ["\"" ++ name ++ "\" " ++ cfg.name ++ " professor homepage",
     "\"" ++ name ++ "\" " ++ cfg.name ++ " lab research group"]
  else [])

/-- The query loop of `find_website` (lines 1054-1062): accumulate
ranked results per query, discarding the in-flight results and
stopping when quota exhaustion is observed after a search. -/
def runQueries (oracle : ℕ → BraveResponse) (st : BraveState) :
    List String → List (SearchResult × ℕ) × BraveState
  | [] => ([], st)
  | q :: qs =>
    let r := braveSearch oracle st q
    if r.2.quota_exhausted then ([], r.2)
    else
      let ranked := r.1.enum.map (fun p => (p.2, p.1 + 1))
      let rec1 := runQueries oracle r.2 qs
      (ranked ++ rec1.1, rec1.2)

/-- Deduplicate by lowercased url with trailing slashes stripped,
keeping the first occurrence (lines 1067-1073). -/
def dedupByUrl : List (SearchResult × ℕ) → List String → List (SearchResult × ℕ)
  | [], _ => []
  | r :: rest, seen =>
    let key := String.mk (rstripSlash (sLower r.1.url).toList)
    if seen.contains key then dedupByUrl rest seen
    else r :: dedupByUrl rest (key :: seen)

structure ScoredCand where
  url : String
  score : ℚ
  signals : List String
  page_type : String
deriving DecidableEq, Repr

/-- Rank bonus `0.05 * (10 - rank) / 10` (line 1082). -/
def rankBonus (rank : ℕ) : ℚ :=
  qDiv (qMul (mkRat 1 20) (((10 - (rank : ℤ)) : ℤ) : ℚ)) (((10 : ℕ) : ℚ))

def insertDescBy {α : Type _} {K : Type _} [LinearOrder K] (key : α → K) (x : α) :
    List α → List α
  | [] => [x]
  | y :: ys => if key x > key y then x :: y :: ys else y :: insertDescBy key x ys

/-- Stable descending sort (Python `list.sort(key=…, reverse=True)`). -/
def sortDescBy {α : Type _} {K : Type _} [LinearOrder K] (key : α → K)
    (l : List α) : List α :=
  l.foldl (fun acc x => insertDescBy key x acc) []

/-- Embedding of `WebsiteFinder.find_website` (lines 1048-1114). -/
def findWebsite (oracle : ℕ → BraveResponse) (cfg : InstConfig)
    (st : BraveState) (f : FacultyMember) : Option WebsiteData × BraveState :=
  if st.quota_exhausted then (none, st)
  else
    let queries := generateQueries cfg f.name f.h_index
    let run := runQueries oracle st queries
    let st' := run.2
    if run.1 = [] then (none, st')
    else
      let unique := dedupByUrl run.1 []
      let scored := unique.filterMap (fun p =>
        if isHardDenied p.1.url then none
        else
          let sc := scoreResult cfg p.1 f.name
          some (ScoredCand.mk p.1.url (qAdd sc.1 (rankBonus p.2)) sc.2.1 sc.2.2))
      if scored = [] then (none, st')
      else
        match (sortDescBy (fun c => c.score) scored).head? with
        | none => (none, st')
        | some best =>
          if best.score < mkRat 3 20 then (none, st')
          else
            let conf :=
              if best.score ≥ mkRat 1 2 then ConfidenceLevel.high
              else if best.score ≥ mkRat 3 10 then ConfidenceLevel.medium
              else ConfidenceLevel.low
            (some { value := some best.url, source := .search, confidence := conf,
                    score := best.score, signals := best.signals,
                    page_type := best.page_type }, st')

def withIdxFrom {α : Type _} (n : ℕ) : List α → List (ℕ × α)
  | [] => []
  | x :: xs => (n, x) :: withIdxFrom (n + 1) xs

def withIdx {α : Type _} (l : List α) : List (ℕ × α) :=
  withIdxFrom 0 l

/-- The directory-cache pass of `find_websites_batch` (lines
1128-1143); `if cached:` is Python truthiness, so an empty cached URL
writes nothing. -/
def dirCachePass (cache : List (String × String)) (l : List FacultyMember) :
    List FacultyMember :=
  l.map (fun f =>
    if !(strTruthy f.website.value) then
      match lookupWebsite cache f.name with
      | some w =>
        if w ≠ "" then
          { f with website :=
              { value := some w, source := .directory, confidence := .high,
                score := 1, signals := ["directory_cache"],
                page_type := "department" } }
        else f
      | none => f
    else f)

/-- The proactive budget trim of `find_websites_batch` (lines
1149-1156): when the estimated query count exceeds the budget, drop
that many records from the end of the medium-value list
(`medium_value[:-reduce_medium]`). -/
def trimMedium (high med : List (ℕ × FacultyMember)) (maxQueries : ℕ) :
    List (ℕ × FacultyMember) :=
  if high.length * 3 + med.length > maxQueries then
    if min (high.length * 3 + med.length - maxQueries) med.length > 0 then
      med.take (med.length -
        min (high.length * 3 + med.length - maxQueries) med.length)
    else med
  else med

/-- Selection and budget-trimming of the records submitted to search
(lines 1145-1159), as positions into the faculty list. -/
def websitesEligible (l1 : List FacultyMember) (maxQueries : ℕ) :
    List (ℕ × FacultyMember) :=
  let need := (withIdx l1).filter (fun p => !(strTruthy p.2.website.value))
  let high := need.filter (fun p => p.2.h_index ≥ HIGH_VALUE_H_INDEX)
  let med := need.filter (fun p =>
    MEDIUM_VALUE_H_INDEX ≤ p.2.h_index ∧ p.2.h_index < HIGH_VALUE_H_INDEX)
  sortDescBy (fun p => p.2.h_index) (high ++ trimMedium high med maxQueries)

/-- The search loop of `find_websites_batch` (lines 1161-1180),
returning website updates keyed by position. -/
def batchLoop (oracle : ℕ → BraveResponse) (cfg : InstConfig) :
    BraveState → List (ℕ × FacultyMember) → List (ℕ × WebsiteData) × BraveState
  | st, [] => ([], st)
  | st, (i, f) :: rest =>
    if st.quota_exhausted then ([], st)
    else
      let r := findWebsite oracle cfg st f
      let more := batchLoop oracle cfg r.2 rest
      match r.1 with
      | some w => ((i, w) :: more.1, more.2)
      | none => more

def modifyAt {α : Type _} (i : ℕ) (g : α → α) : List α → List α
  | [] => []
  | x :: xs =>
    match i with
    | 0 => g x :: xs
    | i' + 1 => x :: modifyAt i' g xs

def applyWebsiteUpdates (ups : List (ℕ × WebsiteData)) (l : List FacultyMember) :
    List FacultyMember :=
  ups.foldl (fun acc p => modifyAt p.1 (fun f => { f with website := p.2 }) acc) l

/-- Embedding of `WebsiteFinder.find_websites_batch` (lines 1116-1187). -/
def findWebsitesBatch (oracle : ℕ → BraveResponse) (cfg : InstConfig)
    (st : BraveState) (l : List FacultyMember)
    (dirCache : Option (List (String × String))) (maxQueries : ℕ) :
    List FacultyMember × BraveState :=
  let cq := checkQuota oracle st
  if !cq.1.1 then (l, cq.2)
  else
    let l1 :=
      match dirCache with
      | some cache => dirCachePass cache l
      | none => l
    let elig := websitesEligible l1 maxQueries
    let r := batchLoop oracle cfg cq.2 elig
    (applyWebsiteUpdates r.1 l1, r.2)

/-! ## Website email extractor

`WebsiteEmailExtractor` (lines 1193-1425).  Fetching and parsing a page
(HTTP, BeautifulSoup, the `re` scans over arbitrary page text and the
contact-link discovery) are the embedding boundary: a `fetch` oracle
returns, per URL, the extracted candidate lists and the discovered
contact links, or `none` for a failed fetch. -/

def GENERIC_EMAIL_PREFIXES : List String :=
  ["info@", "contact@", "admin@", "office@",
   "department@", "dept@", "general@", "inquiries@",
   "support@", "help@", "webmaster@", "web@",
   "communications@", "media@", "press@", "news@",
   "events@", "editor@", "subscribe@", "noreply@",
   "hr@", "careers@", "admissions@", "registrar@",
   "alumni@", "development@", "giving@", "contedu@",
   "program@", "programs@", "course@", "courses@", "steppingstrong@",
   "statistics@", "math@", "chemistry@", "physics@",
   "biology@", "economics@", "psychology@", "sociology@",
   "ogephd@", "dms@", "hms@", "lab@", "research@",
   "faculty@", "staff@", "graduate@", "undergraduate@"]

/-- Embedding of `WebsiteEmailExtractor._is_generic_email` (lines 1222-1227): each
pattern of `GENERIC_EMAIL_PATTERNS` is anchored (`re.match`), so it is
a plain leading-string test; `programs?@`/`courses?@` are expanded to
both alternatives. -/
def isGenericEmail (email : String) : Bool :=
  let e := sLower email
  GENERIC_EMAIL_PREFIXES.any (fun p => listHasLead p.toList e.toList)

/-- Embedding of `_is_valid_domain` of `WebsiteEmailExtractor` (lines 1229-1233) and
`FallbackEmailSearch` (lines 1440-1444): the domain is the second
`@`-component (`split('@')[1]`).  On an address without `@` the Python
raises `IndexError`; the model yields the empty domain, which matches
no allow-list entry, so the set of accepted emails is unchanged. -/
def weIsValidDomain (cfg : InstConfig) (email : String) : Bool :=
  if email = "" then false
  else domainMatches cfg.email_domains (((sSplit '@' (sLower email)).drop 1).headD "")

def methodBoost : String → ℚ
  | "mailto" => mkRat 3 10
  | "regex" => mkRat 1 5
  | "obfuscated" => mkRat 1 10
  | "contact_page" => mkRat 3 20
  | _ => 0

/-- The per-candidate body of `_select_best_email` (lines 1306-1320):
domain allow-list test, generic-address rejection, scoring with the
method boost and the acceptance bars (a lower one for the name score of
`mailto` candidates). -/
def selCand (cfg : InstConfig) (name : String) (c : String × String) :
    Option (String × String × ℚ) :=
  if !(weIsValidDomain cfg c.1) then none
  else if isGenericEmail c.1 then none
  else
    let ns := matchEmailToName c.1 name
    let tot := qAdd ns (methodBoost c.2)
    let minScore := if c.2 = "mailto" then mkRat 1 4 else mkRat 7 20
    if ns ≥ minScore || tot ≥ mkRat 2 5 then some (c.1, c.2, tot) else none

/-- Embedding of `WebsiteEmailExtractor._select_best_email` (lines 1304-1326):
candidates are `(email, method)` pairs; survivors carry their combined
score, and the best combined score wins (stable sort, so earlier
candidates win ties). -/
def selectBestEmail (cfg : InstConfig) (cands : List (String × String))
    (name : String) : Option (String × String × ℚ) :=
  (sortDescBy (fun x => x.2.2) (cands.filterMap (selCand cfg name))).head?

structure PageData where
  mailtos : List String := []
  regexEmails : List String := []
  obfuscated : List String := []
  contactLinks : List String := []
deriving DecidableEq, Repr

def shouldSkipSite (cfg : InstConfig) (url : String) : Bool :=
  cfg.skip_email_sites.any (fun s => strContains (sLower url) s)

def shouldTryContactPage (cfg : InstConfig) (url : String) : Bool :=
  cfg.contact_page_sites.any (fun s => strContains (sLower url) s)

/-- The contact-page loop of `extract_email` (lines 1355-1372). -/
def contactLoop (fetch : String → Option PageData) (cfg : InstConfig)
    (name : String) :
    List String → List (String × String) → Option (String × String × ℚ) →
      List (String × String) × Option (String × String × ℚ)
  | [], cands, best => (cands, best)
  | cu :: rest, cands, best =>
    match fetch cu with
    | none => contactLoop fetch cfg name rest cands best
    | some pd =>
      let cands' := cands ++ pd.mailtos.map (fun e => (e, "contact_page"))
        ++ pd.regexEmails.map (fun e => (e, "contact_page"))
      match selectBestEmail cfg cands' name with
      | some n =>
        if best.all (fun b => n.2.2 > b.2.2) then
          if n.2.2 ≥ mkRat 3 5 then (cands', some n)
          else contactLoop fetch cfg name rest cands' (some n)
        else contactLoop fetch cfg name rest cands' best
      | none => contactLoop fetch cfg name rest cands' best

/-- Embedding of `WebsiteEmailExtractor.extract_email` (lines 1328-1397). -/
def extractEmail (fetch : String → Option PageData) (cfg : InstConfig)
    (url name : String) : Option EmailData :=
  if url = "" then none
  else if shouldSkipSite cfg url then none
  else
    match fetch url with
    | none => none
    | some pd =>
      let cands := pd.mailtos.map (fun e => (e, "mailto"))
        ++ pd.regexEmails.map (fun e => (e, "regex"))
        ++ pd.obfuscated.map (fun e => (e, "obfuscated"))
      let best0 := selectBestEmail cfg cands name
      let loopRes :=
        if best0.isNone || best0.any (fun b => b.2.2 < mkRat 1 2)
            || shouldTryContactPage cfg url then
          contactLoop fetch cfg name pd.contactLinks cands best0
        else (cands, best0)
      let best1 :=
        match loopRes.2 with
        | none => selectBestEmail cfg loopRes.1 name
        | some b => some b
      match best1 with
      | none => none
      | some b =>
        let conf :=
          if b.2.2 ≥ mkRat 3 5 then ConfidenceLevel.high
          else if b.2.2 ≥ mkRat 2 5 then ConfidenceLevel.medium
          else ConfidenceLevel.low
        some { value := some b.1, source := .website, confidence := conf,
               extracted_from := some url, extraction_method := some b.2.1,
               name_match_score := b.2.2 }

/-- Embedding of `WebsiteEmailExtractor.extract_emails_batch` (lines 1399-1425). -/
def websiteEmailsBatch (fetch : String → Option PageData) (cfg : InstConfig)
    (l : List FacultyMember) : List FacultyMember :=
  l.map (fun f =>
    if strTruthy f.website.value && !(strTruthy f.email.value)
        && f.website.page_type ≠ "aggregator" then
      match extractEmail fetch cfg (f.website.value.getD "") f.name with
      | some e => { f with email := e }
      | none => f
    else f)

/-! ## Fallback email search

`FallbackEmailSearch` (lines 1431-1518).  `findall` is the `re` engine
applied with `EMAIL_REGEX` to a title-plus-description text blob
(arbitrary external text, so part of the oracle boundary). -/

def fallbackPickEmail (cfg : InstConfig) (fname url : String) :
    List String → Option EmailData
  | [] => none
  | e :: rest =>
    let e' := sLower e
    if weIsValidDomain cfg e' then
      let ns := matchEmailToName e' fname
      if ns ≥ mkRat 3 10 then
        some { value := some e', source := .fallback, confidence := .medium,
               extracted_from := some url,
               extraction_method := some "fallback_search",
               name_match_score := ns }
      else fallbackPickEmail cfg fname url rest
    else fallbackPickEmail cfg fname url rest

def fallbackScanResults (findall : String → List String) (cfg : InstConfig)
    (fname : String) : List SearchResult → Option EmailData
  | [] => none
  | r :: rest =>
    match fallbackPickEmail cfg fname r.url
        (findall (r.title ++ " " ++ r.description)) with
    | some e => some e
    | none => fallbackScanResults findall cfg fname rest

def fallbackQueryLoop (findall : String → List String)
    (oracle : ℕ → BraveResponse) (cfg : InstConfig) (fname : String) :
    List String → BraveState → Option EmailData × BraveState
  | [], st => (none, st)
  | q :: qs, st =>
    let r := braveSearch oracle st q
    if r.2.quota_exhausted then (none, r.2)
    else
      match fallbackScanResults findall cfg fname r.1 with
      | some e => (some e, r.2)
      | none => fallbackQueryLoop findall oracle cfg fname qs r.2

/-- Embedding of `FallbackEmailSearch.search_email` (lines 1446-1487). -/
def fallbackSearchEmail (findall : String → List String)
    (oracle : ℕ → BraveResponse) (cfg : InstConfig) (st : BraveState)
    (f : FacultyMember) : Option EmailData × BraveState :=
  if st.quota_exhausted then (none, st)
  else
    fallbackQueryLoop findall oracle cfg f.name
      ["\"" ++ f.name ++ "\" email site:" ++ cfg.website_domain,
       "\"" ++ f.name ++ "\" contact site:" ++ cfg.website_domain] st

def fallbackEligible (f : FacultyMember) : Bool :=
  strTruthy f.website.value && !(strTruthy f.email.value)

/-- Embedding of `FallbackEmailSearch.search_emails_batch` (lines 1489-1518): the
loop over `eligible = [f for f in faculty_list if …][:max_searches]`,
rendered positionally (`cnt` counts the eligible records already
covered by the `[:max_searches]` slice; once quota exhaustion is
observed at the top of the loop the remaining records are untouched). -/
def fallbackGo (findall : String → List String) (oracle : ℕ → BraveResponse)
    (cfg : InstConfig) (maxSearches : ℕ) :
    BraveState → ℕ → List FacultyMember → List FacultyMember × BraveState
  | st, _, [] => ([], st)
  | st, cnt, f :: rest =>
    if fallbackEligible f ∧ cnt < maxSearches then
      if st.quota_exhausted then (f :: rest, st)
      else
        let r := fallbackSearchEmail findall oracle cfg st f
        let f' :=
          match r.1 with
          | some e => { f with email := e }
          | none => f
        let rec1 := fallbackGo findall oracle cfg maxSearches r.2 (cnt + 1) rest
        (f' :: rec1.1, rec1.2)
    else
      let rec1 := fallbackGo findall oracle cfg maxSearches st cnt rest
      (f :: rec1.1, rec1.2)

def fallbackBatch (findall : String → List String) (oracle : ℕ → BraveResponse)
    (cfg : InstConfig) (st : BraveState) (l : List FacultyMember)
    (maxSearches : ℕ) : List FacultyMember × BraveState :=
  fallbackGo findall oracle cfg maxSearches st 0 l

/-! ## ORCID email extractor

`OrcidEmailExtractor` (lines 691-760).  The registry response for an
ORCID id is an oracle: 404, any raised error (caught and turned into
`None` by the source), or a list of email entries. -/

/-- Match the fixed-width pattern `\d{4}-\d{4}-\d{4}-\d{3}[\dX]` at the
head of the character list. -/
def orcidMatchAt (s : List Char) : Option String :=
  match s with
  | a :: b :: c :: d :: '-' :: e :: f :: g :: h :: '-' ::
      i :: j :: k :: l :: '-' :: m :: n :: o :: p :: _ =>
    if ([a, b, c, d, e, f, g, h, i, j, k, l, m, n, o].all Char.isDigit)
        && (p.isDigit || p = 'X') then
      some (String.mk [a, b, c, d, '-', e, f, g, h, '-', i, j, k, l, '-', m, n, o, p])
    else none
  | _ => none

def orcidSearchGo : List Char → Option String
  | [] => none
  | c :: cs =>
    match orcidMatchAt (c :: cs) with
    | some r => some r
    | none => orcidSearchGo cs

/-- Embedding of `OrcidEmailExtractor._extract_orcid_id` (lines 700-704):
`re.search` for the id pattern, leftmost match. -/
def extractOrcidId (orcidUrl : String) : Option String :=
  if orcidUrl = "" then none else orcidSearchGo orcidUrl.toList

inductive OrcidResponse
  | notFound
  | err
  | ok (emails : List String)
deriving DecidableEq, Repr

/-- Embedding of `OrcidEmailExtractor.get_email` (lines 706-738): a 404 and any
raised error both produce `None`; the first entry containing `@` is
accepted, lowercased, at HIGH confidence — with no domain allow-list
check and no generic-address check. -/
def orcidGetEmail (resp : String → OrcidResponse) (orcid : String) :
    Option EmailData :=
  match extractOrcidId orcid with
  | none => none
  | some oid =>
    match resp oid with
    | .notFound => none
    | .err => none
    | .ok emails =>
      match emails.find? (fun e => e ≠ "" && strContains e "@") with
      | some e =>
        some { value := some (sLower e), source := .orcid, confidence := .high,
               extracted_from := some ("https://orcid.org/" ++ oid),
               extraction_method := some "orcid_api", name_match_score := 1 }
      | none => none

/-- Embedding of `OrcidEmailExtractor.extract_emails_batch` (lines 740-760); the
per-record registry interaction is the composed `get_email`. -/
def orcidBatch (getE : FacultyMember → Option EmailData)
    (l : List FacultyMember) : List FacultyMember :=
  l.map (fun f =>
    if strTruthy f.orcid && !(strTruthy f.email.value) then
      match getE f with
      | some e => { f with email := e }
      | none => f
    else f)

/-! ## OpenAlex client

`OpenAlexClient` (lines 1524-1660).  `oracle k` is the outcome of the
`k`-th API request after `_request`'s internal retries: call `0` is the
count probe, call `k ≥ 1` is page `k`.  An `Except.error` models the
exception `_request` re-raises after its retry ceiling. -/

structure OAAuthor where
  display_name : String := ""
  id : Option String := none
  orcid : Option String := none
  institutions : List String := []
  h_index : ℤ := 0
  i10_index : ℤ := 0
  works_count : ℤ := 0
  cited_by_count : ℤ := 0
  topics : List TopicEntry := []
  x_concepts : List ConceptEntry := []
deriving DecidableEq, Repr

structure OAPage where
  results : List OAAuthor := []
deriving DecidableEq, Repr

/-- Embedding of `OpenAlexClient._parse_research_profile` (lines 1546-1569). -/
def parseResearchProfile (a : OAAuthor) : ResearchProfile :=
  let topics := ((a.topics.take 15).filter (fun t => t.name ≠ "")).map
    (fun t => TopicEntry.mk t.name (pRound t.score 3))
  let concepts := ((a.x_concepts.take 10).filter (fun c => c.name ≠ "")).map
    (fun c => ConceptEntry.mk c.name c.level (pRound c.score 3))
  let fieldsL := ((a.x_concepts.filter (fun c => c.level = 0)).map
    (fun c => c.name)).take 5
  let keywords :=
    if topics ≠ [] then (topics.take 15).map (fun t => t.name)
    else if concepts ≠ [] then
      ((concepts.filter (fun c => c.level ≥ 1)).map (fun c => c.name)).take 15
    else []
  ⟨topics, concepts, fieldsL, keywords, none⟩

def headWord (s : String) : String :=
  String.mk ((splitWs s.toList).headD [])

/-- The per-author filters of `extract_faculty` (lines 1611-1628): a
record failing any of them is skipped silently. -/
def keepAuthor (cfg : InstConfig) (a : OAAuthor) : Bool :=
  a.institutions ≠ [] &&
    strContains (a.institutions.headD "") (headWord cfg.name) &&
    a.institutions.length ≤ MAX_INSTITUTIONS &&
    !(a.h_index < MIN_H_INDEX_FOR_EXTRACTION && a.works_count < 30)

def mkFaculty (cfg : InstConfig) (now : String) (a : OAAuthor) : FacultyMember :=
  { name := a.display_name, openalex_id := a.id, orcid := a.orcid,
    institution := cfg.name, institution_id := some cfg.openalex_id,
    h_index := a.h_index, i10_index := a.i10_index,
    works_count := a.works_count, cited_by_count := a.cited_by_count,
    research := parseResearchProfile a, extraction_date := now }

/-- Python `if max_faculty and len(faculty_list) >= max_faculty` (a cap
of `0` is falsy and means no cap). -/
def maxReached (maxF : Option ℕ) (n : ℕ) : Bool :=
  match maxF with
  | none => false
  | some m => m ≠ 0 && n ≥ m

def processAuthors (cfg : InstConfig) (now : String) (maxF : Option ℕ) :
    List FacultyMember → List OAAuthor → List FacultyMember
  | acc, [] => acc
  | acc, a :: rest =>
    if maxReached maxF acc.length then acc
    else if keepAuthor cfg a then
      processAuthors cfg now maxF (acc ++ [mkFaculty cfg now a]) rest
    else processAuthors cfg now maxF acc rest

/-- The pagination loop of `extract_faculty` (lines 1591-1651): a page
request error breaks the loop, keeping the partial accumulator; an
empty result page or the 100-page guard also stop it. -/
def extractLoop (oracle : ℕ → Except String OAPage) (cfg : InstConfig)
    (now : String) (maxF : Option ℕ) :
    ℕ → ℕ → List FacultyMember → List FacultyMember
  | 0, _, acc => acc
  | fuel + 1, page, acc =>
    if maxReached maxF acc.length then acc
    else
      match oracle page with
      | .error _ => acc
      | .ok pg =>
        if pg.results = [] then acc
        else
          let acc' := processAuthors cfg now maxF acc pg.results
          if page + 1 > 100 then acc'
          else extractLoop oracle cfg now maxF fuel (page + 1) acc'

/-- Embedding of `OpenAlexClient.extract_faculty` (lines 1571-1660): the initial
count probe (request 0) is outside any `try`, so its failure is raised
to the caller (fatal for the run); page failures after it only end the
pagination.  The final list is sorted by descending `h_index`. -/
def extractFaculty (oracle : ℕ → Except String OAPage) (cfg : InstConfig)
    (now : String) (maxF : Option ℕ) : Except String (List FacultyMember) :=
  match oracle 0 with
  | .error e => .error e
  | .ok _ =>
    .ok (sortDescBy (fun f => f.h_index) (extractLoop oracle cfg now maxF 100 1 []))

/-! ## Checkpoint manager and resume scan

`CheckpointManager` (lines 354-409) and the resume scan of
`FacultyPipeline.run` (lines 1717-1741).  The checkpoint directory is
an oracle from phase name to file content; a present-but-unparseable
file makes `json.load` raise `JSONDecodeError`, which `load` does not
catch, modelled as `Except.error`. -/

structure CheckpointDoc where
  faculty : Option (List FacultySer) := none
deriving DecidableEq, Repr

inductive FileContent
  | missing
  | corrupt
  | valid (doc : CheckpointDoc)
deriving DecidableEq, Repr

/-- Embedding of `CheckpointManager.load` (lines 375-382). -/
def cmLoad (store : String → FileContent) (phase : String) :
    Except String (Option CheckpointDoc) :=
  match store phase with
  | .missing => Except.ok none
  | .corrupt => Except.error "json.decoder.JSONDecodeError"
  | .valid d => Except.ok (some d)

/-- Embedding of `CheckpointManager.load_faculty_list` (lines 405-409). -/
def loadFacultyList (store : String → FileContent) (phase : String) :
    Except String (Option (List FacultyMember)) :=
  match cmLoad store phase with
  | .error e => .error e
  | .ok none => .ok none
  | .ok (some d) =>
    match d.faculty with
    | some fs => .ok (some (fs.map facultyFromDict))
    | none => .ok none

def phaseOrder : List String :=
  ["phase3b_emails", "phase3a_orcid", "phase2b_websites",
   "phase2a_directories", "phase1_openalex"]

/-- The resume loop of `run` (lines 1718-1737): scan the phases from
most to least advanced, stop at the first checkpoint giving a
non-empty faculty list; a raised load error propagates (no handler in
`run` or `main` besides the fatal top-level one). -/
def resumeScanGo (store : String → FileContent) :
    List String → Except String (Option (String × List FacultyMember))
  | [] => .ok none
  | p :: ps =>
    match loadFacultyList store p with
    | .error e => .error e
    | .ok (some fl) =>
      if fl ≠ [] then .ok (some (p, fl)) else resumeScanGo store ps
    | .ok none => resumeScanGo store ps

def resumeScan (store : String → FileContent) :
    Except String (Option (String × List FacultyMember)) :=
  resumeScanGo store phaseOrder

structure PhaseFlags where
  phase1 : Bool
  phase2a : Bool
  phase2b : Bool
  phase3a : Bool
  phase3b : Bool
  phase3c : Bool
deriving DecidableEq, Repr

/-- The flag assignment of `run` (lines 1710-1741) for a resume attempt
with no skip options: when no checkpoint is found every phase runs
("starting fresh"); a loaded phase disables itself and everything
before it. -/
def flagsAfterResume (loaded : Option String) : PhaseFlags :=
  match loaded with
  | none => ⟨true, true, true, true, true, true⟩
  | some p =>
    if p = "phase3b_emails" then ⟨false, false, false, false, false, true⟩
    else if p = "phase3a_orcid" then ⟨false, false, false, false, true, true⟩
    else if p = "phase2b_websites" then ⟨false, false, false, true, true, true⟩
    else if p = "phase2a_directories" then ⟨false, false, true, true, true, true⟩
    else if p = "phase1_openalex" then ⟨false, true, true, true, true, true⟩
    else ⟨true, true, true, true, true, true⟩

/-! ## Proof devices and witness fixtures

`gstep` is the fuzzy-scan step of `lookup_email` with the scoring
function abstracted (definitionally equal to `fuzzyBestStep`);
`c9mEx` and `c1wRec` are concrete records used by witnesses. -/

def gstep {α β : Type} (f : α → ℚ) (thr : ℚ) (acc : Option β × ℚ)
    (kv : α × β) : Option β × ℚ :=
  if f kv.1 > acc.2 ∧ f kv.1 ≥ thr then (some kv.2, f kv.1) else acc

def c9mEx : FacultyMember :=
  { name := "Jane Roe"
    orcid := some "https://orcid.org/0000-0002-1825-0097"
    institution := "Harvard University"
    h_index := 25
    research := { topics := [⟨"Biology", mkRat 1 2⟩], keywords := ["Biology"] }
    email := { value := some "jroe@harvard.edu", source := .orcid,
               confidence := .high, name_match_score := 1 }
    website := { value := some "https://x.harvard.edu/~jroe", source := .search,
                 confidence := .medium, score := mkRat 3 10 }
    extraction_date := "2026-01-01T00:00:00" }

def c1wRec : FacultyMember where
  name := "Jane Roe"
  email := { value := some "jroe@harvard.edu", source := .orcid,
             confidence := .high, name_match_score := 1 }
  website := { value := some "https://x.harvard.edu/~jroe", source := .search,
               confidence := .medium, score := mkRat 3 10 }

end Pipeline

/-! ## Claim theorems (part 1) -/

open Pipeline

theorem qAdd_eq (a b : ℚ) : qAdd a b = a + b := by
  unfold qAdd
  rw [Rat.mkRat_eq_divInt]
  conv_rhs => rw [← Rat.num_divInt_den a, ← Rat.num_divInt_den b]
  rw [Rat.divInt_add_divInt _ _ (Int.natCast_ne_zero.mpr a.den_nz)
    (Int.natCast_ne_zero.mpr b.den_nz)]
  push_cast
  ring_nf

theorem qSub_eq (a b : ℚ) : qSub a b = a - b := by
  unfold qSub
  rw [Rat.mkRat_eq_divInt]
  conv_rhs => rw [← Rat.num_divInt_den a, ← Rat.num_divInt_den b]
  rw [Rat.divInt_sub_divInt _ _ (Int.natCast_ne_zero.mpr a.den_nz)
    (Int.natCast_ne_zero.mpr b.den_nz)]
  push_cast
  ring_nf

theorem qMul_eq (a b : ℚ) : qMul a b = a * b := by
  unfold qMul
  rw [Rat.mkRat_eq_divInt]
  conv_rhs => rw [← Rat.num_divInt_den a, ← Rat.num_divInt_den b]
  rw [Rat.divInt_mul_divInt']
  push_cast
  ring_nf

theorem qDiv_eq (a b : ℚ) : qDiv a b = a / b := by
  unfold qDiv
  exact (Rat.div_def' a b).symm

/-- C8: `generate_variations("Dr. Maria Garcia-Lopez")` is deterministic
(repeated calls return the same list of strings, the function being pure)
and its result contains at least "maria garcia-lopez", "garcia-lopez",
"garcia", "lopez" and "m garcia-lopez". -/
theorem braveSearchLoop_attempts_mono (oracle : ℕ → BraveResponse) :
    ∀ (n : ℕ) (st : BraveState),
      st.attempts ≤ (braveSearchLoop oracle n st).2.attempts := by
  intro n
  induction n with
  | zero => intro st; simp [braveSearchLoop]
  | succ tries ih =>
    intro st
    cases h : oracle st.attempts <;> simp only [braveSearchLoop, h] <;>
      first
        | simp
        | (exact le_trans (by simp) (ih _))
        | (split <;> [simp; exact le_trans (by simp) (ih _)])

theorem braveSearchLoop_attempts_gt (oracle : ℕ → BraveResponse)
    (tries : ℕ) (st : BraveState) :
    st.attempts < (braveSearchLoop oracle (tries + 1) st).2.attempts := by
  cases h : oracle st.attempts <;> simp only [braveSearchLoop, h] <;>
    first
      | simp
      | (exact lt_of_lt_of_le (by simp)
          (braveSearchLoop_attempts_mono oracle tries _))
      | (split <;>
          [simp;
           exact lt_of_lt_of_le (by simp)
             (braveSearchLoop_attempts_mono oracle tries _)])

theorem braveSearch_exhausted (oracle : ℕ → BraveResponse) (st : BraveState)
    (q : String) (hq : st.quota_exhausted = true) :
    braveSearch oracle st q = ([], st) := by
  simp [braveSearch, hq]

theorem parseDataSource_toStr (s : DataSource) : parseDataSource s.toStr = s := by
  cases s <;> rfl

theorem parseConfidence_toStr (c : ConfidenceLevel) :
    parseConfidence c.toStr = c := by
  cases c <;> rfl

theorem email_roundtrip (e : EmailData)
    (h : pRound e.name_match_score 2 = e.name_match_score) :
    emailFromDict (emailToDict e) = e := by
  cases e
  simp only [emailToDict, emailFromDict, parseDataSource_toStr,
    parseConfidence_toStr] at *
  simp [h]

theorem website_roundtrip (w : WebsiteData)
    (h : pRound w.score 3 = w.score) :
    websiteFromDict (websiteToDict w) = w := by
  cases w
  simp only [websiteToDict, websiteFromDict, parseDataSource_toStr,
    parseConfidence_toStr] at *
  simp [h]

theorem research_roundtrip (r : ResearchProfile)
    (h1 : r.topics.length ≤ 10) (h2 : r.concepts.length ≤ 5)
    (h3 : r.fields.length ≤ 5) (h4 : r.keywords.length ≤ 15) :
    researchFromDict (researchToDict r) = r := by
  cases r
  simp only [researchToDict, researchFromDict] at *
  simp [List.take_of_length_le, h1, h2, h3, h4]

theorem c8_variations_deterministic_and_complete :
    generateVariations "Dr. Maria Garcia-Lopez" =
        generateVariations "Dr. Maria Garcia-Lopez"
    ∧ "maria garcia-lopez" ∈ generateVariations "Dr. Maria Garcia-Lopez"
    ∧ "garcia-lopez" ∈ generateVariations "Dr. Maria Garcia-Lopez"
    ∧ "garcia" ∈ generateVariations "Dr. Maria Garcia-Lopez"
    ∧ "lopez" ∈ generateVariations "Dr. Maria Garcia-Lopez"
    ∧ "m garcia-lopez" ∈ generateVariations "Dr. Maria Garcia-Lopez" :=
  ⟨rfl, by decide, by decide, by decide, by decide, by decide⟩

/-- C9: for a FacultyMember within the serialization caps (at most 10
topics, 5 concepts, 5 fields, 15 keywords) whose email
`name_match_score`, website `score` and topic/concept scores already
equal their rounded serialized values, `from_dict (to_dict m)`
reconstructs the record exactly, so a checkpoint save followed by a
load is the identity on such records. -/
theorem c9_checkpoint_roundtrip (m : FacultyMember)
    (h1 : m.research.topics.length ≤ 10)
    (h2 : m.research.concepts.length ≤ 5)
    (h3 : m.research.fields.length ≤ 5)
    (h4 : m.research.keywords.length ≤ 15)
    (h5 : pRound m.email.name_match_score 2 = m.email.name_match_score)
    (h6 : pRound m.website.score 3 = m.website.score)
    (h7 : ∀ t ∈ m.research.topics, pRound t.score 3 = t.score)
    (h8 : ∀ c ∈ m.research.concepts, pRound c.score 3 = c.score) :
    facultyFromDict (facultyToDict m) = m := by
  cases m
  simp only [facultyToDict, facultyFromDict] at *
  simp [email_roundtrip _ h5, website_roundtrip _ h6,
    research_roundtrip _ h1 h2 h3 h4]

theorem c9_checkpoint_roundtrip_witness :
    (c9mEx.research.topics.length ≤ 10
      ∧ pRound c9mEx.email.name_match_score 2 = c9mEx.email.name_match_score
      ∧ pRound c9mEx.website.score 3 = c9mEx.website.score)
    ∧ facultyFromDict (facultyToDict c9mEx) = c9mEx :=
  ⟨⟨by decide, by decide, by decide⟩,
   c9_checkpoint_roundtrip c9mEx (by decide) (by decide) (by decide) (by decide)
     (by decide) (by decide) (by decide) (by decide)⟩

theorem batchLoop_exhausted (oracle : ℕ → BraveResponse) (cfg : InstConfig)
    (st : BraveState) (elig : List (ℕ × FacultyMember))
    (hq : st.quota_exhausted = true) :
    batchLoop oracle cfg st elig = ([], st) := by
  cases elig with
  | nil => rfl
  | cons p rest => simp [batchLoop, hq]

theorem fallbackGo_exhausted (findall : String → List String)
    (oracle : ℕ → BraveResponse) (cfg : InstConfig) (maxS : ℕ)
    (st : BraveState) (hq : st.quota_exhausted = true) :
    ∀ (l : List FacultyMember) (cnt : ℕ),
      fallbackGo findall oracle cfg maxS st cnt l = (l, st) := by
  intro l
  induction l with
  | nil => intro cnt; rfl
  | cons f rest ih =>
    intro cnt
    by_cases he : fallbackEligible f ∧ cnt < maxS
    · simp [fallbackGo, he, hq]
    · simp [fallbackGo, he, ih]

theorem checkQuota_exhausted (oracle : ℕ → BraveResponse) (st : BraveState)
    (hq : st.quota_exhausted = true) :
    (checkQuota oracle st).1.1 = false ∧ (checkQuota oracle st).2 = st := by
  by_cases hk : st.api_key = ""
  · simp [checkQuota, hk]
  · simp [checkQuota, hk, braveSearch_exhausted oracle st _ hq, hq]

theorem findWebsitesBatch_exhausted (oracle : ℕ → BraveResponse)
    (cfg : InstConfig) (st : BraveState) (l : List FacultyMember)
    (dc : Option (List (String × String))) (mq : ℕ)
    (hq : st.quota_exhausted = true) :
    findWebsitesBatch oracle cfg st l dc mq = (l, st) := by
  obtain ⟨h1, h2⟩ := checkQuota_exhausted oracle st hq
  simp [findWebsitesBatch, h1, h2]

/-- C3: an HTTP 402 response sets the quota-exhausted flag; from an
exhausted state every search invocation returns the empty list with
the state unchanged (so no network request is issued — `attempts`, the
count of requests, does not move), and the search-bound batch loops
(website discovery and fallback email search) stop at once, leaving
state and records untouched.  Since the search client is the only
mutator of the flag and is the identity on exhausted states, the flag
stays true for the remainder of the run. -/
theorem c3_quota_exhaustion_graceful_stop (oracle : ℕ → BraveResponse)
    (cfg : InstConfig) (findall : String → List String) :
    (∀ (st : BraveState) (q : String), st.api_key ≠ "" →
      st.quota_exhausted = false → oracle st.attempts = BraveResponse.code402 →
      (braveSearch oracle st q).2.quota_exhausted = true)
    ∧ (∀ (st : BraveState) (q : String), st.quota_exhausted = true →
        braveSearch oracle st q = ([], st))
    ∧ (∀ (st : BraveState) (f : FacultyMember), st.quota_exhausted = true →
        findWebsite oracle cfg st f = (none, st))
    ∧ (∀ (st : BraveState) (elig : List (ℕ × FacultyMember)),
        st.quota_exhausted = true → batchLoop oracle cfg st elig = ([], st))
    ∧ (∀ (st : BraveState) (l : List FacultyMember)
        (dc : Option (List (String × String))) (mq : ℕ),
        st.quota_exhausted = true →
        findWebsitesBatch oracle cfg st l dc mq = (l, st))
    ∧ (∀ (st : BraveState) (f : FacultyMember), st.quota_exhausted = true →
        fallbackSearchEmail findall oracle cfg st f = (none, st))
    ∧ (∀ (st : BraveState) (cnt maxS : ℕ) (l : List FacultyMember),
        st.quota_exhausted = true →
        fallbackGo findall oracle cfg maxS st cnt l = (l, st)) := by
  refine ⟨?_, ?_, ?_, ?_, ?_, ?_, ?_⟩
  · intro st q hk hq h402
    simp [braveSearch, hk, hq, MAX_RETRIES, braveSearchLoop, h402]
  · intro st q hq
    exact braveSearch_exhausted oracle st q hq
  · intro st f hq
    simp [findWebsite, hq]
  · intro st elig hq
    exact batchLoop_exhausted oracle cfg st elig hq
  · intro st l dc mq hq
    exact findWebsitesBatch_exhausted oracle cfg st l dc mq hq
  · intro st f hq
    simp [fallbackSearchEmail, hq]
  · intro st cnt maxS l hq
    exact fallbackGo_exhausted findall oracle cfg maxS st hq l cnt

theorem c3_quota_exhaustion_graceful_stop_witness :
    ((⟨"k", 0, 0, 0, none, false, 0⟩ : BraveState).api_key ≠ ""
      ∧ (⟨"k", 0, 0, 0, none, false, 0⟩ : BraveState).quota_exhausted = false
      ∧ (fun _ => BraveResponse.code402) (⟨"k", 0, 0, 0, none, false, 0⟩ : BraveState).attempts
          = BraveResponse.code402)
    ∧ (braveSearch (fun _ => BraveResponse.code402)
        ⟨"k", 0, 0, 0, none, false, 0⟩ "q").2.quota_exhausted = true
    ∧ braveSearch (fun _ => BraveResponse.code402)
        ⟨"k", 3, 1, 0, some "Quota exhausted", true, 4⟩ "q2"
        = ([], ⟨"k", 3, 1, 0, some "Quota exhausted", true, 4⟩)
    ∧ fallbackGo (fun _ => []) (fun _ => BraveResponse.code402) harvardConfig 100
        ⟨"k", 3, 1, 0, some "Quota exhausted", true, 4⟩ 0
        [{ name := "Jane Roe",
           website := { value := some "https://x.harvard.edu/~jroe" } }]
        = ([{ name := "Jane Roe",
              website := { value := some "https://x.harvard.edu/~jroe" } }],
           ⟨"k", 3, 1, 0, some "Quota exhausted", true, 4⟩) :=
  ⟨⟨by decide, by decide, by decide⟩,
   (c3_quota_exhaustion_graceful_stop (fun _ => BraveResponse.code402)
       harvardConfig (fun _ => [])).1
     ⟨"k", 0, 0, 0, none, false, 0⟩ "q" (by decide) (by decide) (by decide),
   (c3_quota_exhaustion_graceful_stop (fun _ => BraveResponse.code402)
       harvardConfig (fun _ => [])).2.1
     ⟨"k", 3, 1, 0, some "Quota exhausted", true, 4⟩ "q2" (by decide),
   (c3_quota_exhaustion_graceful_stop (fun _ => BraveResponse.code402)
       harvardConfig (fun _ => [])).2.2.2.2.2.2
     ⟨"k", 3, 1, 0, some "Quota exhausted", true, 4⟩ 0 100
     [{ name := "Jane Roe",
        website := { value := some "https://x.harvard.edu/~jroe" } }] (by decide)⟩

/-- C5 counterexample: after an HTTP 401 the client records the error
and does not set the quota flag, but it is NOT permanently failed: a
second `search` call issues another network request (the request
counter moves from 1 to 2), contradicting "issuing no further calls
for the run", and nothing aborts the run. -/
theorem c5_counterexample :
    (braveSearch (fun _ => BraveResponse.code401)
        ⟨"k", 0, 0, 0, none, false, 0⟩ "q1").2.last_error = some "Invalid API key"
    ∧ (braveSearch (fun _ => BraveResponse.code401)
        ⟨"k", 0, 0, 0, none, false, 0⟩ "q1").2.quota_exhausted = false
    ∧ (braveSearch (fun _ => BraveResponse.code401)
        ⟨"k", 0, 0, 0, none, false, 0⟩ "q1").2.attempts = 1
    ∧ (braveSearch (fun _ => BraveResponse.code401)
        (braveSearch (fun _ => BraveResponse.code401)
          ⟨"k", 0, 0, 0, none, false, 0⟩ "q1").2 "q2").2.attempts = 2 := by
  decide

/-- C5 (amended): on HTTP 401 the search client records "Invalid API
key" as `last_error`, returns the empty list without setting
`quota_exhausted`, and is not disabled: any later call from a keyed,
non-exhausted state issues a new network request.  The condition is
surfaced through `check_quota`, which makes the website-discovery
phase return its input unchanged (the phase is skipped; the run is not
aborted). -/
theorem c5_amended_http401_behavior (oracle : ℕ → BraveResponse)
    (cfg : InstConfig) :
    (∀ (st : BraveState) (q : String), st.api_key ≠ "" →
      st.quota_exhausted = false →
      oracle st.attempts = BraveResponse.code401 →
      braveSearch oracle st q =
        ([], { st with attempts := st.attempts + 1,
                       last_error := some "Invalid API key",
                       queries_failed := st.queries_failed + 1 }))
    ∧ (∀ (st : BraveState) (q : String), st.api_key ≠ "" →
        st.quota_exhausted = false →
        st.attempts < (braveSearch oracle st q).2.attempts)
    ∧ (∀ st : BraveState, st.api_key ≠ "" → st.quota_exhausted = false →
        oracle st.attempts = BraveResponse.code401 →
        checkQuota oracle st = ((false, "Invalid API key"),
          { st with attempts := st.attempts + 1,
                    last_error := some "Invalid API key",
                    queries_failed := st.queries_failed + 1 }))
    ∧ (∀ (st : BraveState) (l : List FacultyMember)
        (dc : Option (List (String × String))) (mq : ℕ),
        st.api_key ≠ "" → st.quota_exhausted = false →
        oracle st.attempts = BraveResponse.code401 →
        (findWebsitesBatch oracle cfg st l dc mq).1 = l) := by
  have h401 : ∀ (st : BraveState) (q : String), st.api_key ≠ "" →
      st.quota_exhausted = false →
      oracle st.attempts = BraveResponse.code401 →
      braveSearch oracle st q =
        ([], { st with attempts := st.attempts + 1,
                       last_error := some "Invalid API key",
                       queries_failed := st.queries_failed + 1 }) := by
    intro st q hk hq h
    simp [braveSearch, hk, hq, MAX_RETRIES, braveSearchLoop, h]
  have hcq : ∀ st : BraveState, st.api_key ≠ "" → st.quota_exhausted = false →
      oracle st.attempts = BraveResponse.code401 →
      checkQuota oracle st = ((false, "Invalid API key"),
        { st with attempts := st.attempts + 1,
                  last_error := some "Invalid API key",
                  queries_failed := st.queries_failed + 1 }) := by
    intro st hk hq h
    simp only [checkQuota, hk, if_false, h401 st "test" hk hq h]
    simp [hq]
  refine ⟨h401, ?_, hcq, ?_⟩
  · intro st q hk hq
    have : braveSearch oracle st q = braveSearchLoop oracle MAX_RETRIES st := by
      simp [braveSearch, hk, hq]
    rw [this]
    exact braveSearchLoop_attempts_gt oracle 2 st
  · intro st l dc mq hk hq h
    simp [findWebsitesBatch, hcq st hk hq h]

theorem c5_amended_http401_behavior_witness :
    ((⟨"k", 0, 0, 0, none, false, 0⟩ : BraveState).api_key ≠ ""
      ∧ (⟨"k", 0, 0, 0, none, false, 0⟩ : BraveState).quota_exhausted = false
      ∧ (fun _ => BraveResponse.code401)
          (⟨"k", 0, 0, 0, none, false, 0⟩ : BraveState).attempts
          = BraveResponse.code401)
    ∧ braveSearch (fun _ => BraveResponse.code401)
        ⟨"k", 0, 0, 0, none, false, 0⟩ "q"
        = ([], ⟨"k", 0, 1, 0, some "Invalid API key", false, 1⟩)
    ∧ checkQuota (fun _ => BraveResponse.code401) ⟨"k", 0, 0, 0, none, false, 0⟩
        = ((false, "Invalid API key"),
           ⟨"k", 0, 1, 0, some "Invalid API key", false, 1⟩) :=
  ⟨⟨by decide, by decide, by decide⟩,
   (c5_amended_http401_behavior (fun _ => BraveResponse.code401) harvardConfig).1
     ⟨"k", 0, 0, 0, none, false, 0⟩ "q" (by decide) (by decide) (by decide),
   (c5_amended_http401_behavior (fun _ => BraveResponse.code401) harvardConfig).2.2.1
     ⟨"k", 0, 0, 0, none, false, 0⟩ (by decide) (by decide) (by decide)⟩

theorem resumeScanGo_all_missing (store : String → FileContent)
    (ps : List String) (h : ∀ p ∈ ps, store p = FileContent.missing) :
    resumeScanGo store ps = Except.ok none := by
  induction ps with
  | nil => rfl
  | cons p rest ih =>
    have hp : store p = FileContent.missing := h p (by simp)
    simp only [resumeScanGo, loadFacultyList, cmLoad, hp]
    exact ih (fun q hq => h q (by simp [hq]))

/-- C4 counterexample: a present-but-unparseable snapshot for the most
advanced phase makes the resume scan raise (`json.load` inside
`CheckpointManager.load` is not wrapped in any handler), instead of
being treated as "no checkpoint". -/
theorem c4_counterexample :
    resumeScan (fun p =>
        if p = "phase3b_emails" then FileContent.corrupt else FileContent.missing)
      = Except.error "json.decoder.JSONDecodeError"
    ∧ (fun p =>
        if p = "phase3b_emails" then FileContent.corrupt else FileContent.missing)
        "phase3b_emails" = FileContent.corrupt :=
  ⟨rfl, rfl⟩

/-- C4 (amended): a missing snapshot is treated as "no checkpoint" and
never raises — `load` gives `None`, `load_faculty_list` gives `None`,
and a resume over a checkpoint directory with no snapshots at all ends
with "no checkpoint found", after which every phase runs from scratch;
but a present-and-unparseable snapshot raises out of
`CheckpointManager.load` (fatal to the resuming run). -/
theorem c4_amended_missing_checkpoint_handling (store : String → FileContent) :
    (∀ phase, store phase = FileContent.missing →
      cmLoad store phase = Except.ok none)
    ∧ (∀ phase, store phase = FileContent.missing →
        loadFacultyList store phase = Except.ok none)
    ∧ ((∀ p ∈ phaseOrder, store p = FileContent.missing) →
        resumeScan store = Except.ok none)
    ∧ flagsAfterResume none = ⟨true, true, true, true, true, true⟩
    ∧ (∀ phase, store phase = FileContent.corrupt →
        cmLoad store phase = Except.error "json.decoder.JSONDecodeError") := by
  refine ⟨?_, ?_, ?_, rfl, ?_⟩
  · intro phase h
    simp [cmLoad, h]
  · intro phase h
    simp [loadFacultyList, cmLoad, h]
  · intro h
    exact resumeScanGo_all_missing store phaseOrder h
  · intro phase h
    simp [cmLoad, h]

theorem c4_amended_missing_checkpoint_handling_witness :
    (fun _ => FileContent.missing) "phase1_openalex" = FileContent.missing
    ∧ cmLoad (fun _ => FileContent.missing) "phase1_openalex" = Except.ok none
    ∧ resumeScan (fun _ => FileContent.missing) = Except.ok none :=
  ⟨rfl,
   (c4_amended_missing_checkpoint_handling (fun _ => FileContent.missing)).1
     "phase1_openalex" rfl,
   (c4_amended_missing_checkpoint_handling (fun _ => FileContent.missing)).2.2.1
     (fun _ _ => rfl)⟩

/-- C6 counterexample: with the count probe and page 1 succeeding
(page 1 carrying one well-formed author) and the page 2 request
failing after its retries, extraction does not abort: it returns a
non-empty partial seed population, contradicting "a single catalog
page request failure aborts extraction for that run as a fatal error,
leaving no partial seed population". -/
theorem c6_counterexample :
    extractFaculty
        (fun k =>
          if k = 0 then Except.ok {}
          else if k = 1 then
            Except.ok { results :=
              [{ display_name := "Jane Roe",
                 institutions := ["Harvard University"],
                 h_index := 25, works_count := 100 }] }
          else Except.error "connection reset")
        harvardConfig "2026-01-01T00:00:00" none
      = Except.ok [mkFaculty harvardConfig "2026-01-01T00:00:00"
          { display_name := "Jane Roe",
            institutions := ["Harvard University"],
            h_index := 25, works_count := 100 }]
    ∧ (fun k =>
          if k = 0 then Except.ok {}
          else if k = 1 then
            Except.ok { results :=
              [{ display_name := "Jane Roe",
                 institutions := ["Harvard University"],
                 h_index := 25, works_count := 100 }] }
          else Except.error "connection reset") 2
        = (Except.error "connection reset" : Except String OAPage)
    ∧ [mkFaculty harvardConfig "2026-01-01T00:00:00"
          { display_name := "Jane Roe",
            institutions := ["Harvard University"],
            h_index := 25, works_count := 100 }] ≠ ([] : List FacultyMember) :=
  ⟨rfl, rfl, by simp⟩

/-- C6 (amended): only the initial count probe is fatal — its failure
is re-raised out of `extract_faculty` and aborts the run; a failing
page request during pagination merely ends the loop and returns the
partial seed population accumulated so far; an author record failing
the affiliation/name/filter checks is skipped silently. -/
theorem c6_amended_seed_extraction_failures (oracle : ℕ → Except String OAPage)
    (cfg : InstConfig) (now : String) (maxF : Option ℕ) :
    (∀ e : String, oracle 0 = Except.error e →
      extractFaculty oracle cfg now maxF = Except.error e)
    ∧ (∀ (a : OAAuthor) (rest : List OAAuthor) (acc : List FacultyMember),
        keepAuthor cfg a = false →
        processAuthors cfg now maxF acc (a :: rest)
          = processAuthors cfg now maxF acc rest)
    ∧ (∀ (fuel page : ℕ) (acc : List FacultyMember) (e : String),
        oracle page = Except.error e →
        maxReached maxF acc.length = false →
        extractLoop oracle cfg now maxF (fuel + 1) page acc = acc) := by
  refine ⟨?_, ?_, ?_⟩
  · intro e h
    simp [extractFaculty, h]
  · intro a rest acc hk
    by_cases hm : maxReached maxF acc.length <;>
      cases rest <;> simp [processAuthors, hk, hm]
  · intro fuel page acc e h hm
    simp [extractLoop, h, hm]

theorem c6_amended_seed_extraction_failures_witness :
    (fun _ => (Except.error "boom" : Except String OAPage)) 0
        = Except.error "boom"
    ∧ extractFaculty (fun _ => Except.error "boom") harvardConfig
        "2026-01-01T00:00:00" none = Except.error "boom"
    ∧ keepAuthor harvardConfig { display_name := "No Affiliation" } = false
    ∧ processAuthors harvardConfig "2026-01-01T00:00:00" none []
        [{ display_name := "No Affiliation" }]
        = processAuthors harvardConfig "2026-01-01T00:00:00" none [] [] :=
  ⟨rfl,
   (c6_amended_seed_extraction_failures (fun _ => Except.error "boom")
       harvardConfig "2026-01-01T00:00:00" none).1 "boom" rfl,
   by decide,
   (c6_amended_seed_extraction_failures (fun _ => Except.error "boom")
       harvardConfig "2026-01-01T00:00:00" none).2.1
     { display_name := "No Affiliation" } [] [] (by decide)⟩

theorem mem_insertDescBy {α K : Type _} [LinearOrder K] (key : α → K)
    (y x : α) : ∀ l : List α, x ∈ insertDescBy key y l → x = y ∨ x ∈ l := by
  intro l
  induction l with
  | nil => simp [insertDescBy]
  | cons z zs ih =>
    simp only [insertDescBy]
    split
    · intro h
      exact List.mem_cons.mp h
    · intro h
      rcases List.mem_cons.mp h with h | h
      · exact Or.inr (by simp [h])
      · rcases ih h with h' | h'
        · exact Or.inl h'
        · exact Or.inr (by simp [h'])

theorem mem_sortDescBy_aux {α K : Type _} [LinearOrder K] (key : α → K)
    (x : α) : ∀ (l acc : List α),
      x ∈ l.foldl (fun acc y => insertDescBy key y acc) acc →
      x ∈ acc ∨ x ∈ l := by
  intro l
  induction l with
  | nil => intro acc h; exact Or.inl h
  | cons z zs ih =>
    intro acc h
    rcases ih (insertDescBy key z acc) h with h' | h'
    · rcases mem_insertDescBy key z x acc h' with h'' | h''
      · exact Or.inr (by simp [h''])
      · exact Or.inl h''
    · exact Or.inr (by simp [h'])

theorem mem_sortDescBy {α K : Type _} [LinearOrder K] (key : α → K)
    (x : α) (l : List α) (h : x ∈ sortDescBy key l) : x ∈ l := by
  rcases mem_sortDescBy_aux key x l [] h with h' | h'
  · simp at h'
  · exact h'

theorem selCand_filters (cfg : InstConfig) (name : String)
    (c : String × String) (e m : String) (s : ℚ)
    (h : selCand cfg name c = some (e, m, s)) :
    weIsValidDomain cfg e = true ∧ isGenericEmail e = false := by
  unfold selCand at h
  by_cases h1 : weIsValidDomain cfg c.1
  · by_cases h2 : isGenericEmail c.1
    · simp [h1, h2] at h
    · simp only [h1, h2, Bool.not_true, Bool.false_eq_true, if_false,
        Bool.not_false, if_true] at h
      split at h <;> split at h <;>
        first
          | (have he : c.1 = e := congrArg Prod.fst (Option.some.inj h)
             exact ⟨he ▸ h1, he ▸ (by simpa using h2)⟩)
          | exact absurd h (by simp)
  · simp [h1] at h

/-- Every candidate `select_best_email` returns passed the allow-list
domain test and is not one of the generic role addresses. -/
theorem selectBestEmail_filters (cfg : InstConfig)
    (cands : List (String × String)) (name : String)
    (e m : String) (s : ℚ)
    (h : selectBestEmail cfg cands name = some (e, m, s)) :
    weIsValidDomain cfg e = true ∧ isGenericEmail e = false := by
  unfold selectBestEmail at h
  have hmem : (e, m, s) ∈ sortDescBy (fun x : String × String × ℚ => x.2.2)
      (cands.filterMap (selCand cfg name)) :=
    List.mem_of_mem_head? (by simp [h])
  have hmem2 := mem_sortDescBy _ _ _ hmem
  rw [List.mem_filterMap] at hmem2
  obtain ⟨c, _, hc⟩ := hmem2
  exact selCand_filters cfg name c e m s hc

theorem contactLoop_filters (fetch : String → Option PageData)
    (cfg : InstConfig) (name : String) :
    ∀ (links : List String) (cands : List (String × String))
      (best : Option (String × String × ℚ)),
      (∀ (e m : String) (s : ℚ), best = some (e, m, s) →
        weIsValidDomain cfg e = true ∧ isGenericEmail e = false) →
      ∀ (e m : String) (s : ℚ),
        (contactLoop fetch cfg name links cands best).2 = some (e, m, s) →
        weIsValidDomain cfg e = true ∧ isGenericEmail e = false := by
  intro links
  induction links with
  | nil =>
    intro cands best hbest e m s h
    exact hbest e m s h
  | cons cu rest ih =>
    intro cands best hbest e m s h
    simp only [contactLoop] at h
    cases hf : fetch cu with
    | none =>
      simp only [hf] at h
      exact ih cands best hbest e m s h
    | some pd =>
      simp only [hf] at h
      cases hs : selectBestEmail cfg
          (cands ++ pd.mailtos.map (fun e => (e, "contact_page"))
            ++ pd.regexEmails.map (fun e => (e, "contact_page"))) name with
      | none =>
        simp only [hs] at h
        exact ih _ best hbest e m s h
      | some n =>
        simp only [hs] at h
        have hn : ∀ (e m : String) (s : ℚ), some n = some (e, m, s) →
            weIsValidDomain cfg e = true ∧ isGenericEmail e = false := by
          intro e' m' s' hn'
          have := Option.some.inj hn'
          subst this
          exact selectBestEmail_filters cfg _ name e' m' s' hs
        split at h
        · split at h
          · exact hn e m s (congrArg some (Prod.ext (congrArg Prod.fst
              (Option.some.inj h)) (congrArg Prod.snd (Option.some.inj h))))
          · exact ih _ (some n) hn e m s h
        · exact ih _ best hbest e m s h

theorem extractEmail_filters (fetch : String → Option PageData)
    (cfg : InstConfig) (url name : String) (ed : EmailData)
    (h : extractEmail fetch cfg url name = some ed) :
    ∃ e, ed.value = some e ∧ weIsValidDomain cfg e = true
      ∧ isGenericEmail e = false := by
  unfold extractEmail at h
  by_cases hu : url = ""
  · simp [hu] at h
  · by_cases hskip : shouldSkipSite cfg url
    · simp [hu, hskip] at h
    · simp only [hu, hskip, if_false, Bool.false_eq_true] at h
      cases hf : fetch url with
      | none => simp [hf] at h
      | some pd =>
        simp only [hf] at h
        split at h
        · exact absurd h (by simp)
        · rename_i b heq
          have hb : weIsValidDomain cfg b.1 = true ∧ isGenericEmail b.1 = false := by
            split at heq
            · exact selectBestEmail_filters cfg _ name b.1 b.2.1 b.2.2 heq
            · rename_i b' heq'
              have hb' : b' = b := Option.some.inj heq
              subst hb'
              split at heq'
              · exact contactLoop_filters fetch cfg name _ _ _
                  (fun e m s hs =>
                    selectBestEmail_filters cfg _ name e m s
                      (by simpa using hs)) b'.1 b'.2.1 b'.2.2 heq'
              · exact selectBestEmail_filters cfg _ name b'.1 b'.2.1 b'.2.2
                  (by simpa using heq')
          refine ⟨b.1, ?_, hb.1, hb.2⟩
          have := Option.some.inj h
          subst this
          rfl

theorem fallbackPickEmail_filters (cfg : InstConfig) (fname url : String) :
    ∀ (es : List String) (ed : EmailData),
      fallbackPickEmail cfg fname url es = some ed →
      ∃ e, ed.value = some e ∧ weIsValidDomain cfg e = true := by
  intro es
  induction es with
  | nil => intro ed h; exact absurd h (by simp [fallbackPickEmail])
  | cons e rest ih =>
    intro ed h
    simp only [fallbackPickEmail] at h
    split at h
    · split at h
      · rename_i hv _
        refine ⟨sLower e, ?_, hv⟩
        have := Option.some.inj h
        subst this
        rfl
      · exact ih ed h
    · exact ih ed h

theorem fallbackScanResults_filters (findall : String → List String)
    (cfg : InstConfig) (fname : String) :
    ∀ (rs : List SearchResult) (ed : EmailData),
      fallbackScanResults findall cfg fname rs = some ed →
      ∃ e, ed.value = some e ∧ weIsValidDomain cfg e = true := by
  intro rs
  induction rs with
  | nil => intro ed h; exact absurd h (by simp [fallbackScanResults])
  | cons r rest ih =>
    intro ed h
    simp only [fallbackScanResults] at h
    cases hp : fallbackPickEmail cfg fname r.url
        (findall (r.title ++ " " ++ r.description)) with
    | none =>
      simp only [hp] at h
      exact ih ed h
    | some e' =>
      simp only [hp] at h
      have := Option.some.inj h
      subst this
      exact fallbackPickEmail_filters cfg fname r.url _ _ hp

theorem fallbackQueryLoop_filters (findall : String → List String)
    (oracle : ℕ → BraveResponse) (cfg : InstConfig) (fname : String) :
    ∀ (qs : List String) (st : BraveState) (ed : EmailData),
      (fallbackQueryLoop findall oracle cfg fname qs st).1 = some ed →
      ∃ e, ed.value = some e ∧ weIsValidDomain cfg e = true := by
  intro qs
  induction qs with
  | nil => intro st ed h; exact absurd h (by simp [fallbackQueryLoop])
  | cons q rest ih =>
    intro st ed h
    simp only [fallbackQueryLoop] at h
    split at h
    · exact absurd h (by simp)
    · cases hs : fallbackScanResults findall cfg fname
          (braveSearch oracle st q).1 with
      | none =>
        simp only [hs] at h
        exact ih _ ed h
      | some e' =>
        simp only [hs] at h
        have := Option.some.inj h
        subst this
        exact fallbackScanResults_filters findall cfg fname _ _ hs

theorem fallbackSearchEmail_filters (findall : String → List String)
    (oracle : ℕ → BraveResponse) (cfg : InstConfig) (st : BraveState)
    (f : FacultyMember) (ed : EmailData)
    (h : (fallbackSearchEmail findall oracle cfg st f).1 = some ed) :
    ∃ e, ed.value = some e ∧ weIsValidDomain cfg e = true := by
  unfold fallbackSearchEmail at h
  split at h
  · exact absurd h (by simp)
  · exact fallbackQueryLoop_filters findall oracle cfg f.name _ st ed h

/-- C2 counterexample: the ORCID phase accepts any registry email
containing `@` — here a gmail address, outside every configured
allow-list domain — and writes it onto the record at HIGH confidence,
so it is not true that every extraction phase enforces the
institution's domain allow-list and generic-address filter. -/
theorem c2_counterexample :
    orcidGetEmail (fun _ => OrcidResponse.ok ["John.Smith@GMAIL.com"])
        "https://orcid.org/0000-0002-1825-0097"
      = some { value := some "john.smith@gmail.com", source := .orcid,
               confidence := .high,
               extracted_from := some "https://orcid.org/0000-0002-1825-0097",
               extraction_method := some "orcid_api", name_match_score := 1 }
    ∧ weIsValidDomain harvardConfig "john.smith@gmail.com" = false
    ∧ dirIsValidEmail harvardConfig "john.smith@gmail.com" = false
    ∧ (orcidBatch
        (fun f => orcidGetEmail (fun _ => OrcidResponse.ok ["John.Smith@GMAIL.com"])
          (f.orcid.getD ""))
        [{ name := "Jane Roe",
           orcid := some "https://orcid.org/0000-0002-1825-0097" }]).map
        (fun f => f.email.value)
      = [some "john.smith@gmail.com"] := by
  refine ⟨by decide, by decide, by decide, by decide⟩

/-- C2 (amended): the filtering claim holds for the phases that fetch
emails from the open web — website email extraction accepts only
emails whose domain is on the allow-list and whose local-part matches
no generic role pattern, and fallback search accepts only allow-listed
domains (it applies no generic-pattern check) — while the ORCID
registry phase accepts any self-asserted email without either check,
and the directory cache enforces only the domain check at scrape
time. -/
theorem c2_amended_domain_generic_filtering (fetch : String → Option PageData)
    (findall : String → List String) (oracle : ℕ → BraveResponse)
    (cfg : InstConfig) :
    (∀ (cands : List (String × String)) (name e m : String) (s : ℚ),
      selectBestEmail cfg cands name = some (e, m, s) →
      weIsValidDomain cfg e = true ∧ isGenericEmail e = false)
    ∧ (∀ (url name : String) (ed : EmailData),
        extractEmail fetch cfg url name = some ed →
        ∃ e, ed.value = some e ∧ weIsValidDomain cfg e = true
          ∧ isGenericEmail e = false)
    ∧ (∀ (st : BraveState) (f : FacultyMember) (ed : EmailData),
        (fallbackSearchEmail findall oracle cfg st f).1 = some ed →
        ∃ e, ed.value = some e ∧ weIsValidDomain cfg e = true) :=
  ⟨fun cands name e m s h => selectBestEmail_filters cfg cands name e m s h,
   fun url name ed h => extractEmail_filters fetch cfg url name ed h,
   fun st f ed h => fallbackSearchEmail_filters findall oracle cfg st f ed h⟩

theorem c2_amended_domain_generic_filtering_witness :
    extractEmail
        (fun u => if u = "https://x.harvard.edu/~jsmith" then
            some { mailtos := ["jsmith@harvard.edu"] }
          else none)
        harvardConfig "https://x.harvard.edu/~jsmith" "John Smith"
      = some { value := some "jsmith@harvard.edu", source := .website,
               confidence := .high,
               extracted_from := some "https://x.harvard.edu/~jsmith",
               extraction_method := some "mailto",
               name_match_score := mkRat 11 10 }
    ∧ (∃ e, (some "jsmith@harvard.edu" : Option String) = some e
        ∧ weIsValidDomain harvardConfig e = true
        ∧ isGenericEmail e = false) :=
  ⟨by decide,
   by
    have h : extractEmail
        (fun u => if u = "https://x.harvard.edu/~jsmith" then
            some { mailtos := ["jsmith@harvard.edu"] }
          else none)
        harvardConfig "https://x.harvard.edu/~jsmith" "John Smith"
      = some { value := some "jsmith@harvard.edu", source := .website,
               confidence := .high,
               extracted_from := some "https://x.harvard.edu/~jsmith",
               extraction_method := some "mailto",
               name_match_score := mkRat 11 10 } := by decide
    simpa using
      (c2_amended_domain_generic_filtering
        (fun u => if u = "https://x.harvard.edu/~jsmith" then
            some { mailtos := ["jsmith@harvard.edu"] }
          else none)
        (fun _ => []) (fun _ => BraveResponse.code402) harvardConfig).2.1
        "https://x.harvard.edu/~jsmith" "John Smith" _ h⟩

theorem map_preserves_at {α : Type _} (gfun : α → α) (l : List α) (i : ℕ)
    (x : α) (hx : l[i]? = some x) (hfix : gfun x = x) :
    (l.map gfun)[i]? = some x := by
  rw [List.getElem?_map, hx]
  simp [hfix]

theorem directoryEmailFill_preserves (cache : List (String × String))
    (l : List FacultyMember) (i : ℕ) (f : FacultyMember)
    (hf : l[i]? = some f) (he : strTruthy f.email.value = true) :
    (directoryEmailFill cache l)[i]? = some f :=
  map_preserves_at _ l i f hf (by simp [he])

theorem orcidBatch_preserves (getE : FacultyMember → Option EmailData)
    (l : List FacultyMember) (i : ℕ) (f : FacultyMember)
    (hf : l[i]? = some f) (he : strTruthy f.email.value = true) :
    (orcidBatch getE l)[i]? = some f :=
  map_preserves_at _ l i f hf (by simp [he])

theorem websiteEmailsBatch_preserves (fetch : String → Option PageData)
    (cfg : InstConfig) (l : List FacultyMember) (i : ℕ) (f : FacultyMember)
    (hf : l[i]? = some f) (he : strTruthy f.email.value = true) :
    (websiteEmailsBatch fetch cfg l)[i]? = some f :=
  map_preserves_at _ l i f hf (by simp [he])

theorem dirCachePass_preserves (cache : List (String × String))
    (l : List FacultyMember) (i : ℕ) (f : FacultyMember)
    (hf : l[i]? = some f) (hw : strTruthy f.website.value = true) :
    (dirCachePass cache l)[i]? = some f :=
  map_preserves_at _ l i f hf (by simp [hw])

theorem modifyAt_getElem?_ne {α : Type _} (g : α → α) :
    ∀ (l : List α) (i j : ℕ), j ≠ i → (modifyAt i g l)[j]? = l[j]? := by
  intro l
  induction l with
  | nil => intro i j _; simp [modifyAt]
  | cons x xs ih =>
    intro i j hne
    cases i with
    | zero =>
      cases j with
      | zero => exact absurd rfl hne
      | succ j' => simp [modifyAt]
    | succ i' =>
      cases j with
      | zero => simp [modifyAt]
      | succ j' =>
        simp only [modifyAt, List.getElem?_cons_succ]
        exact ih i' j' (fun hc => hne (by simp [hc]))

theorem applyWebsiteUpdates_getElem? (i : ℕ) :
    ∀ (ups : List (ℕ × WebsiteData)) (l : List FacultyMember),
      (∀ p ∈ ups, p.1 ≠ i) → (applyWebsiteUpdates ups l)[i]? = l[i]? := by
  intro ups
  induction ups with
  | nil => intro l _; rfl
  | cons p rest ih =>
    intro l h
    have h1 : p.1 ≠ i := h p (by simp)
    show (applyWebsiteUpdates rest (modifyAt p.1 _ l))[i]? = l[i]?
    rw [ih _ (fun q hq => h q (by simp [hq]))]
    exact modifyAt_getElem?_ne _ l p.1 i (fun hc => h1 hc.symm)

theorem batchLoop_updates_sub (oracle : ℕ → BraveResponse) (cfg : InstConfig) :
    ∀ (elig : List (ℕ × FacultyMember)) (st : BraveState)
      (p : ℕ × WebsiteData), p ∈ (batchLoop oracle cfg st elig).1 →
      p.1 ∈ elig.map Prod.fst := by
  intro elig
  induction elig with
  | nil => intro st p h; exact absurd h (by simp [batchLoop])
  | cons q rest ih =>
    intro st p h
    simp only [batchLoop] at h
    split at h
    · exact absurd h (by simp)
    · split at h
      · rcases List.mem_cons.mp h with h' | h'
        · subst h'
          simp
        · have := ih _ p h'
          simp [this]
      · have := ih _ p h
        simp [this]

theorem withIdxFrom_mem {α : Type _} :
    ∀ (l : List α) (n j : ℕ) (x : α), (j, x) ∈ withIdxFrom n l →
      n ≤ j ∧ l[j - n]? = some x := by
  intro l
  induction l with
  | nil => intro n j x h; exact absurd h (by simp [withIdxFrom])
  | cons y ys ih =>
    intro n j x h
    rcases List.mem_cons.mp h with h' | h'
    · obtain ⟨hj, hx⟩ := Prod.mk.injEq .. ▸ h'
      subst hj
      subst hx
      simp
    · obtain ⟨hle, hget⟩ := ih (n + 1) j x h'
      refine ⟨by omega, ?_⟩
      have : j - n = (j - (n + 1)) + 1 := by omega
      rw [this]
      simpa using hget

theorem withIdx_mem {α : Type _} (l : List α) (j : ℕ) (x : α)
    (h : (j, x) ∈ withIdx l) : l[j]? = some x := by
  obtain ⟨_, hget⟩ := withIdxFrom_mem l 0 j x h
  simpa using hget

theorem trimMedium_subset (high med : List (ℕ × FacultyMember)) (mq : ℕ) :
    ∀ x ∈ trimMedium high med mq, x ∈ med := by
  intro x hx
  unfold trimMedium at hx
  split at hx
  · split at hx
    · exact List.take_subset _ _ hx
    · exact hx
  · exact hx

theorem websitesEligible_mem (l1 : List FacultyMember) (mq : ℕ)
    (j : ℕ) (g : FacultyMember) (h : (j, g) ∈ websitesEligible l1 mq) :
    l1[j]? = some g ∧ strTruthy g.website.value = false := by
  unfold websitesEligible at h
  have h1 := mem_sortDescBy _ _ _ h
  have h2 : (j, g) ∈ (withIdx l1).filter
      (fun p => !(strTruthy p.2.website.value)) := by
    rcases List.mem_append.mp h1 with h' | h'
    · exact (List.mem_filter.mp h').1
    · exact (List.mem_filter.mp (trimMedium_subset _ _ mq _ h')).1
  obtain ⟨hmem, hcond⟩ := List.mem_filter.mp h2
  exact ⟨withIdx_mem l1 j g hmem, by simpa using hcond⟩

theorem findWebsitesBatch_preserves (oracle : ℕ → BraveResponse)
    (cfg : InstConfig) (st : BraveState) (l : List FacultyMember)
    (dc : Option (List (String × String))) (mq : ℕ) (i : ℕ)
    (f : FacultyMember) (hf : l[i]? = some f)
    (hw : strTruthy f.website.value = true) :
    (findWebsitesBatch oracle cfg st l dc mq).1[i]? = some f := by
  have hmain : ∀ l1 : List FacultyMember, l1[i]? = some f →
      (applyWebsiteUpdates (batchLoop oracle cfg (checkQuota oracle st).2
        (websitesEligible l1 mq)).1 l1)[i]? = some f := by
    intro l1 h1
    rw [applyWebsiteUpdates_getElem?]
    · exact h1
    · intro p hp hpi
      have hmem := batchLoop_updates_sub oracle cfg _ _ p hp
      rw [List.mem_map] at hmem
      obtain ⟨⟨j, g⟩, hjg, hj⟩ := hmem
      obtain ⟨hg1, hg2⟩ := websitesEligible_mem l1 mq j g hjg
      have hj' : j = i := by simpa [hpi] using hj
      rw [hj', h1] at hg1
      have : f = g := Option.some.inj hg1
      subst this
      rw [hw] at hg2
      exact absurd hg2 (by simp)
  simp only [findWebsitesBatch]
  split
  · simpa using hf
  · cases dc with
    | none => exact hmain l hf
    | some cache =>
      exact hmain (dirCachePass cache l)
        (dirCachePass_preserves cache l i f hf hw)

theorem fallbackGo_preserves (findall : String → List String)
    (oracle : ℕ → BraveResponse) (cfg : InstConfig) (maxS : ℕ) :
    ∀ (l : List FacultyMember) (st : BraveState) (cnt i : ℕ)
      (f : FacultyMember), l[i]? = some f →
      strTruthy f.email.value = true →
      (fallbackGo findall oracle cfg maxS st cnt l).1[i]? = some f := by
  intro l
  induction l with
  | nil => intro st cnt i f hf _; simp at hf
  | cons g rest ih =>
    intro st cnt i f hf he
    cases i with
    | zero =>
      have hg : g = f := Option.some.inj (by simpa using hf)
      subst hg
      have hne : fallbackEligible g = false := by
        simp [fallbackEligible, he]
      simp [fallbackGo, hne]
    | succ i' =>
      have hf' : rest[i']? = some f := by simpa using hf
      simp only [fallbackGo]
      split
      · split
        · simpa using hf'
        · simpa using ih _ _ i' f hf' he
      · simpa using ih _ _ i' f hf' he

/-- C1: no phase after seed extraction ever overwrites an existing
fact.  Each phase's write is guarded by the absence of the fact it
fills (directory email fill, ORCID lookup, website email extraction
and fallback search write emails only onto records with no email;
the directory-cache pass and search loop of website discovery write
websites only onto records with no website), so a record carrying a
non-null value for the fact a phase writes passes through that phase
unchanged — which in particular satisfies the claimed guard "absent,
or strictly higher confidence". -/
theorem c1_facts_never_overwritten (cache : List (String × String))
    (getE : FacultyMember → Option EmailData)
    (fetch : String → Option PageData) (findall : String → List String)
    (oracle : ℕ → BraveResponse) (cfg : InstConfig) (st : BraveState)
    (dc : Option (List (String × String))) (mq maxS : ℕ)
    (l : List FacultyMember) (i : ℕ) (f : FacultyMember)
    (hf : l[i]? = some f) :
    (strTruthy f.email.value = true →
      (directoryEmailFill cache l)[i]? = some f)
    ∧ (strTruthy f.email.value = true → (orcidBatch getE l)[i]? = some f)
    ∧ (strTruthy f.email.value = true →
        (websiteEmailsBatch fetch cfg l)[i]? = some f)
    ∧ (strTruthy f.email.value = true →
        (fallbackBatch findall oracle cfg st l maxS).1[i]? = some f)
    ∧ (strTruthy f.website.value = true →
        (findWebsitesBatch oracle cfg st l dc mq).1[i]? = some f) :=
  ⟨fun he => directoryEmailFill_preserves cache l i f hf he,
   fun he => orcidBatch_preserves getE l i f hf he,
   fun he => websiteEmailsBatch_preserves fetch cfg l i f hf he,
   fun he => fallbackGo_preserves findall oracle cfg maxS l st 0 i f hf he,
   fun hw => findWebsitesBatch_preserves oracle cfg st l dc mq i f hf hw⟩

theorem c1_facts_never_overwritten_witness :
    ([c1wRec] : List FacultyMember)[0]? = some c1wRec
    ∧ (directoryEmailFill [("jane roe", "other@harvard.edu")] [c1wRec])[0]?
        = some c1wRec
    ∧ (findWebsitesBatch
        (fun _ => BraveResponse.ok [{ url := "https://y.harvard.edu/~someone" }])
        harvardConfig ⟨"k", 0, 0, 0, none, false, 0⟩ [c1wRec]
        (some [("jane roe", "https://z.harvard.edu/people/jane")]) 5000).1[0]?
        = some c1wRec :=
  ⟨rfl,
   (c1_facts_never_overwritten [("jane roe", "other@harvard.edu")]
      (fun _ => none) (fun _ => none) (fun _ => [])
      (fun _ => BraveResponse.ok [{ url := "https://y.harvard.edu/~someone" }])
      harvardConfig ⟨"k", 0, 0, 0, none, false, 0⟩
      (some [("jane roe", "https://z.harvard.edu/people/jane")]) 5000 100
      [c1wRec] 0 c1wRec rfl).1 (by decide),
   (c1_facts_never_overwritten [("jane roe", "other@harvard.edu")]
      (fun _ => none) (fun _ => none) (fun _ => [])
      (fun _ => BraveResponse.ok [{ url := "https://y.harvard.edu/~someone" }])
      harvardConfig ⟨"k", 0, 0, 0, none, false, 0⟩
      (some [("jane roe", "https://z.harvard.edu/people/jane")]) 5000 100
      [c1wRec] 0 c1wRec rfl).2.2.2.2 (by decide)⟩

theorem websitesEligible_h_index (l1 : List FacultyMember) (mq : ℕ)
    (j : ℕ) (g : FacultyMember) (h : (j, g) ∈ websitesEligible l1 mq) :
    MEDIUM_VALUE_H_INDEX ≤ g.h_index := by
  unfold websitesEligible at h
  have h1 := mem_sortDescBy _ _ _ h
  rcases List.mem_append.mp h1 with h' | h'
  · have h2 := (List.mem_filter.mp h').2
    have h3 : HIGH_VALUE_H_INDEX ≤ g.h_index := by simpa using h2
    unfold MEDIUM_VALUE_H_INDEX
    unfold HIGH_VALUE_H_INDEX at h3
    omega
  · have h2 := (List.mem_filter.mp (trimMedium_subset _ _ mq _ h')).2
    have h3 : MEDIUM_VALUE_H_INDEX ≤ g.h_index ∧
        g.h_index < HIGH_VALUE_H_INDEX := by simpa using h2
    exact h3.1

/-- C10: in the website-discovery batch, a record whose `h_index` is
below the medium-value threshold (20) and whose name gets no
directory-cache website hit is never put on the list submitted to the
search client (for any query budget), and ends the phase with its
website fact still absent — the record passes through unchanged. -/
theorem c10_low_h_index_never_searched (oracle : ℕ → BraveResponse)
    (cfg : InstConfig) (st : BraveState) (cache : List (String × String))
    (mq : ℕ) (l : List FacultyMember) (i : ℕ) (f : FacultyMember)
    (hf : l[i]? = some f)
    (hh : f.h_index < MEDIUM_VALUE_H_INDEX)
    (hc : lookupWebsite cache f.name = none)
    (hw : strTruthy f.website.value = false) :
    (∀ g : FacultyMember, (i, g) ∉ websitesEligible (dirCachePass cache l) mq)
    ∧ (findWebsitesBatch oracle cfg st l (some cache) mq).1[i]? = some f := by
  have hl1 : (dirCachePass cache l)[i]? = some f :=
    map_preserves_at _ l i f hf (by simp [hw, hc])
  have hnotelig : ∀ g : FacultyMember,
      (i, g) ∉ websitesEligible (dirCachePass cache l) mq := by
    intro g hg
    obtain ⟨hg1, _⟩ := websitesEligible_mem _ mq i g hg
    rw [hl1] at hg1
    have : f = g := Option.some.inj hg1
    subst this
    have := websitesEligible_h_index _ mq i f hg
    omega
  refine ⟨hnotelig, ?_⟩
  simp only [findWebsitesBatch]
  split
  · simpa using hf
  · rw [applyWebsiteUpdates_getElem?]
    · exact hl1
    · intro p hp hpi
      have hmem := batchLoop_updates_sub oracle cfg _ _ p hp
      rw [List.mem_map] at hmem
      obtain ⟨⟨j, g⟩, hjg, hj⟩ := hmem
      have hj' : j = i := by simpa [hpi] using hj
      subst hj'
      exact hnotelig g hjg

theorem c10_low_h_index_never_searched_witness :
    (([{ name := "Jane Roe", h_index := 5 }] : List FacultyMember)[0]?
        = some { name := "Jane Roe", h_index := 5 }
      ∧ ({ name := "Jane Roe", h_index := 5 } : FacultyMember).h_index
          < MEDIUM_VALUE_H_INDEX
      ∧ lookupWebsite [] ({ name := "Jane Roe", h_index := 5 } :
          FacultyMember).name = none
      ∧ strTruthy ({ name := "Jane Roe", h_index := 5 } :
          FacultyMember).website.value = false)
    ∧ (findWebsitesBatch (fun _ => BraveResponse.ok []) harvardConfig
        ⟨"k", 0, 0, 0, none, false, 0⟩
        [{ name := "Jane Roe", h_index := 5 }] (some []) 5000).1[0]?
      = some { name := "Jane Roe", h_index := 5 } :=
  ⟨⟨rfl, by decide, by decide, by decide⟩,
   (c10_low_h_index_never_searched (fun _ => BraveResponse.ok [])
      harvardConfig ⟨"k", 0, 0, 0, none, false, 0⟩ [] 5000
      [{ name := "Jane Roe", h_index := 5 }] 0
      { name := "Jane Roe", h_index := 5 } rfl (by decide) (by decide)
      (by decide)).2⟩

theorem fuzzyBestStep_eq_gstep (name : String) :
    fuzzyBestStep name = gstep (fuzzyMatch name) FUZZY_MATCH_THRESHOLD := rfl

theorem gfold_spec {α β : Type} (f : α → ℚ) (thr : ℚ) :
    ∀ (l : List (α × β)) (acc : Option β × ℚ),
      (acc.2 ≤ (l.foldl (gstep f thr) acc).2)
      ∧ (∀ kv ∈ l, thr ≤ f kv.1 → f kv.1 ≤ (l.foldl (gstep f thr) acc).2)
      ∧ ((l.foldl (gstep f thr) acc) = acc
          ∨ ∃ kv ∈ l, (l.foldl (gstep f thr) acc).1 = some kv.2
              ∧ (l.foldl (gstep f thr) acc).2 = f kv.1 ∧ thr ≤ f kv.1)
      ∧ ((∀ kv ∈ l, f kv.1 < thr) → l.foldl (gstep f thr) acc = acc) := by
  intro l
  induction l with
  | nil => intro acc; exact ⟨le_refl _, by simp, Or.inl rfl, fun _ => rfl⟩
  | cons kv rest ih =>
    intro acc
    simp only [List.foldl_cons]
    by_cases hstep : f kv.1 > acc.2 ∧ f kv.1 ≥ thr
    · have hstep' : gstep f thr acc kv = (some kv.2, f kv.1) := by
        simp only [gstep]
        rw [if_pos hstep]
      rw [hstep']
      obtain ⟨ih1, ih2, ih3, _⟩ := ih (some kv.2, f kv.1)
      refine ⟨le_trans (le_of_lt hstep.1) ih1, ?_, ?_, ?_⟩
      · intro kv' hkv' hthr
        rcases List.mem_cons.mp hkv' with h | h
        · subst h
          exact ih1
        · exact ih2 kv' h hthr
      · rcases ih3 with h | h
        · exact Or.inr ⟨kv, by simp, by rw [h], by rw [h], hstep.2⟩
        · obtain ⟨kv', hmem, h1, h2, h3⟩ := h
          exact Or.inr ⟨kv', by simp [hmem], h1, h2, h3⟩
      · intro hall
        exact absurd hstep.2 (not_le.mpr (hall kv (by simp)))
    · have hstep' : gstep f thr acc kv = acc := by
        simp only [gstep]
        rw [if_neg hstep]
      rw [hstep']
      obtain ⟨ih1, ih2, ih3, ih4⟩ := ih acc
      refine ⟨ih1, ?_, ?_, ?_⟩
      · intro kv' hkv' hthr
        rcases List.mem_cons.mp hkv' with h | h
        · subst h
          have hle : f kv'.1 ≤ acc.2 := by
            by_contra hgt
            exact hstep ⟨lt_of_not_le hgt, hthr⟩
          exact le_trans hle ih1
        · exact ih2 kv' h hthr
      · rcases ih3 with h | h
        · exact Or.inl h
        · obtain ⟨kv', hmem, h1, h2, h3⟩ := h
          exact Or.inr ⟨kv', by simp [hmem], h1, h2, h3⟩
      · intro hall
        exact ih4 (fun kv' hm => hall kv' (by simp [hm]))

theorem firstExactHit_spec (cache : List (String × String)) :
    ∀ (vs : List String) (e : String), firstExactHit cache vs = some e →
      ∃ v ∈ vs, cacheFind cache v = some e := by
  intro vs
  induction vs with
  | nil => intro e h; exact absurd h (by simp [firstExactHit])
  | cons v rest ih =>
    intro e h
    simp only [firstExactHit] at h
    cases hv : cacheFind cache v with
    | none =>
      simp only [hv] at h
      obtain ⟨v', hmem, hv'⟩ := ih e h
      exact ⟨v', by simp [hmem], hv'⟩
    | some e' =>
      simp only [hv] at h
      have : e' = e := Option.some.inj h
      subst this
      exact ⟨v, by simp, hv⟩

theorem lookupWebsiteFuzzy_spec (name : String) :
    ∀ (cache : List (String × String)) (w : String),
      lookupWebsiteFuzzy name cache = some w →
      ∃ pre k post, cache = pre ++ (k, w) :: post
        ∧ FUZZY_MATCH_THRESHOLD ≤ fuzzyMatch name k
        ∧ ∀ kv ∈ pre, fuzzyMatch name kv.1 < FUZZY_MATCH_THRESHOLD := by
  intro cache
  induction cache with
  | nil => intro w h; exact absurd h (by simp [lookupWebsiteFuzzy])
  | cons kv rest ih =>
    intro w h
    simp only [lookupWebsiteFuzzy] at h
    split at h
    · rename_i hthr
      have : kv.2 = w := Option.some.inj h
      subst this
      exact ⟨[], kv.1, rest, by simp, hthr, by simp⟩
    · rename_i hthr
      obtain ⟨pre, k, post, heq, h1, h2⟩ := ih w h
      refine ⟨kv :: pre, k, post, by simp [heq], h1, ?_⟩
      intro kv' hkv'
      rcases List.mem_cons.mp hkv' with h' | h'
      · subst h'
        exact lt_of_not_le (fun hc => hthr hc)
      · exact h2 kv' h'

/-- C7 counterexample: with a cache holding first an entry fuzzy-scoring
0.9 and then one scoring 1.0 (both at or above the 0.85 threshold, and
neither key an exact variation hit), `lookup_website` returns the FIRST
entry's website, not the best-scoring one — so it does not follow
`lookup_email`'s best-fuzzy-match strategy. -/
theorem c7_counterexample :
    lookupWebsite [("johnny smithson", "https://w1.example.edu"),
                   ("johnny  smith", "https://w2.example.edu")] "Johnny Smith"
      = some "https://w1.example.edu"
    ∧ fuzzyMatch "Johnny Smith" "johnny smithson" = mkRat 9 10
    ∧ fuzzyMatch "Johnny Smith" "johnny  smith" = 1
    ∧ mkRat 9 10 < (1 : ℚ)
    ∧ FUZZY_MATCH_THRESHOLD ≤ mkRat 9 10
    ∧ (generateVariations "Johnny Smith").all (fun v =>
        (cacheFind [("johnny smithson", "https://w1.example.edu"),
                    ("johnny  smith", "https://w2.example.edu")] v).isNone)
        = true
    ∧ lookupEmail [("johnny smithson", "e1@x.edu"), ("johnny  smith", "e2@x.edu")]
        "Johnny Smith" = some ⟨some "e2@x.edu", .directory, .medium,
          some "department_directory", some "directory_fuzzy_match", 1⟩ := by
  refine ⟨by decide, by decide, by decide, by decide, by decide, by decide,
    by decide⟩

/-- C7 (amended): `lookup_email` is two-tier — an exact hit on one of
the name variations is returned at HIGH confidence; otherwise the
best-scoring fuzzy match over the whole cache is returned at MEDIUM
confidence when it reaches the 0.85 threshold, and nothing otherwise.
`lookup_website` shares the exact tier, but its fuzzy tier returns the
FIRST cache entry (in cache order) at or above the threshold, not
necessarily the best-scoring one. -/
theorem c7_amended_directory_lookup_two_tier (cache : List (String × String))
    (name : String) :
    (∀ ed : EmailData, lookupEmail cache name = some ed →
      (ed.confidence = ConfidenceLevel.high
          ∧ ed.extraction_method = some "directory_exact_match"
          ∧ ∃ v ∈ generateVariations name, cacheFind cache v = ed.value)
      ∨ (ed.confidence = ConfidenceLevel.medium
          ∧ FUZZY_MATCH_THRESHOLD ≤ ed.name_match_score
          ∧ (∀ kv ∈ cache, fuzzyMatch name kv.1 ≤ ed.name_match_score)
          ∧ ∃ kv ∈ cache, ed.value = some kv.2
              ∧ ed.name_match_score = fuzzyMatch name kv.1))
    ∧ (firstExactHit cache (generateVariations name) = none →
        (∀ kv ∈ cache, fuzzyMatch name kv.1 < FUZZY_MATCH_THRESHOLD) →
        lookupEmail cache name = none)
    ∧ (∀ w : String, lookupWebsite cache name = some w →
        (∃ v ∈ generateVariations name, cacheFind cache v = some w)
        ∨ ∃ pre k post, cache = pre ++ (k, w) :: post
            ∧ FUZZY_MATCH_THRESHOLD ≤ fuzzyMatch name k
            ∧ ∀ kv ∈ pre, fuzzyMatch name kv.1 < FUZZY_MATCH_THRESHOLD) := by
  refine ⟨?_, ?_, ?_⟩
  · intro ed h
    unfold lookupEmail at h
    cases hx : firstExactHit cache (generateVariations name) with
    | some e =>
      simp only [hx] at h
      have hed := Option.some.inj h
      subst hed
      obtain ⟨v, hmem, hv⟩ := firstExactHit_spec cache _ e hx
      exact Or.inl ⟨rfl, rfl, v, hmem, hv⟩
    | none =>
      simp only [hx, fuzzyBestStep_eq_gstep] at h
      obtain ⟨h1, h2, h3, _⟩ :=
        gfold_spec (fuzzyMatch name) FUZZY_MATCH_THRESHOLD cache (none, 0)
      cases hb : (cache.foldl (gstep (fuzzyMatch name) FUZZY_MATCH_THRESHOLD)
          (none, 0)).1 with
      | none => simp [hb] at h
      | some e =>
        simp only [hb] at h
        split at h
        case isFalse => exact absurd h (by simp)
        have hed := Option.some.inj h
        subst hed
        rcases h3 with hcase | hcase
        · rw [hcase] at hb
          exact absurd hb (by simp)
        · obtain ⟨kv, hmem, hb1, hb2, hb3⟩ := hcase
          refine Or.inr ⟨rfl, ?_, ?_, kv, hmem, ?_, ?_⟩
          · show FUZZY_MATCH_THRESHOLD ≤ (cache.foldl
              (gstep (fuzzyMatch name) FUZZY_MATCH_THRESHOLD) (none, 0)).2
            rw [hb2]
            exact hb3
          · intro kv' hkv'
            show fuzzyMatch name kv'.1 ≤ (cache.foldl
              (gstep (fuzzyMatch name) FUZZY_MATCH_THRESHOLD) (none, 0)).2
            by_cases hthr : FUZZY_MATCH_THRESHOLD ≤ fuzzyMatch name kv'.1
            · exact h2 kv' hkv' hthr
            · rw [hb2]
              exact le_trans (le_of_lt (lt_of_not_le hthr)) hb3
          · show (some e : Option String) = some kv.2
            rw [← hb, hb1]
          · exact hb2
  · intro hx hall
    unfold lookupEmail
    rw [hx, fuzzyBestStep_eq_gstep]
    obtain ⟨_, _, _, h4⟩ :=
      gfold_spec (fuzzyMatch name) FUZZY_MATCH_THRESHOLD cache (none, 0)
    rw [h4 hall]
  · intro w h
    unfold lookupWebsite at h
    cases hx : firstExactHit cache (generateVariations name) with
    | some w' =>
      simp only [hx] at h
      have hw : w' = w := Option.some.inj h
      obtain ⟨v, hmem, hv⟩ := firstExactHit_spec cache _ w' hx
      exact Or.inl ⟨v, hmem, by rw [hv, hw]⟩
    | none =>
      simp only [hx] at h
      exact Or.inr (lookupWebsiteFuzzy_spec name cache w h)

theorem c7_amended_directory_lookup_two_tier_witness :
    firstExactHit [("zzz", "e@x.edu")] (generateVariations "Johnny Smith") = none
    ∧ lookupEmail [("zzz", "e@x.edu")] "Johnny Smith" = none :=
  ⟨by decide,
   (c7_amended_directory_lookup_two_tier [("zzz", "e@x.edu")] "Johnny Smith").2.1
     (by decide) (by decide)⟩
